import Mathlib

/-! The session store of nginxauth.

A shallow embedding of `sessionStore.go` (package `nginxauth`) and of the parts of
`backendRedisSession.go` the session store is checked against.

* Go `[]byte` is `List Byte` with `Byte = Fin 256`.
* Go `string` is a Lean `String`; `len(s)` is the UTF-8 byte count `s.utf8ByteSize`.
* `time.Time` is an instant in nanoseconds together with its location; only the instant
  takes part in `Before` / `After`.
* The collaborators the store holds as Go interfaces (`BackendQuerier`, `Mailer`,
  `CookieStorer`) are records of state-passing functions over a state type `σ`.
* Every call through one of these interfaces is appended to `World.trace`.
-/

namespace NginxAuth

/-! ## Time -/

/-- Location attached to a `time.Time`. -/
inductive Location where
  | UTC
  | Local
  deriving DecidableEq, Repr

/-- A `time.Time`: the instant in nanoseconds, and the location it is expressed in. -/
structure Time where
  nanos : Int
  loc : Location
  deriving DecidableEq, Repr

/-- A `time.Duration`, in nanoseconds. -/
abbrev Duration := Int

namespace Time

/-- The method `t.UTC()`. -/
def UTC (t : Time) : Time := { t with loc := Location.UTC }

/-- The method `t.Add(d)`. -/
def Add (t : Time) (d : Duration) : Time := { t with nanos := t.nanos + d }

/-- The method `t.Before(u)`. -/
def Before (t u : Time) : Bool := decide (t.nanos < u.nanos)

/-- The method `t.After(u)`. -/
def After (t u : Time) : Bool := decide (t.nanos > u.nanos)

end Time

/-- The UTC time at the given instant. -/
def utc (n : Int) : Time := { nanos := n, loc := Location.UTC }

def Nanosecond : Duration := 1
def Second : Duration := 1000000000 * Nanosecond
def Minute : Duration := 60 * Second
def Hour : Duration := 60 * Minute

def sessionRenewDuration : Duration := 5 * Minute
def sessionExpireDuration : Duration := Hour
def rememberMeRenewDuration : Duration := Hour
def rememberMeExpireDuration : Duration := Hour * 24 * 30

/-! ## Bytes, base64 (URL alphabet, padded) -/

abbrev Byte := Fin 256

/-- The bytes of a Go string: its UTF-8 encoding. -/
def utf8Char (c : Char) : List Byte :=
  let n := c.toNat
  if n < 0x80 then [⟨n % 256, Nat.mod_lt _ (by decide)⟩]
  else if n < 0x800 then
    [⟨(0xC0 + n / 64) % 256, Nat.mod_lt _ (by decide)⟩,
     ⟨(0x80 + n % 64) % 256, Nat.mod_lt _ (by decide)⟩]
  else if n < 0x10000 then
    [⟨(0xE0 + n / 4096) % 256, Nat.mod_lt _ (by decide)⟩,
     ⟨(0x80 + n / 64 % 64) % 256, Nat.mod_lt _ (by decide)⟩,
     ⟨(0x80 + n % 64) % 256, Nat.mod_lt _ (by decide)⟩]
  else
    [⟨(0xF0 + n / 262144) % 256, Nat.mod_lt _ (by decide)⟩,
     ⟨(0x80 + n / 4096 % 64) % 256, Nat.mod_lt _ (by decide)⟩,
     ⟨(0x80 + n / 64 % 64) % 256, Nat.mod_lt _ (by decide)⟩,
     ⟨(0x80 + n % 64) % 256, Nat.mod_lt _ (by decide)⟩]

/-- The conversion `[]byte(s)`. -/
def stringBytes (s : String) : List Byte := s.data.flatMap utf8Char

/-- The URL-safe alphabet `encodeURL`:
`A`-`Z`, `a`-`z`, `0`-`9`, `-`, `_`. -/
def encodeURL : List Char :=
  "ABCDEFGHIJKLMNOPQRSTUVWXYZabcdefghijklmnopqrstuvwxyz0123456789-_".data

/-- The character for a six-bit value. -/
def encChar (n : Nat) : Char := encodeURL.getD n 'A'

/-- The entry of `decodeMap` for a character: its six-bit value, or `none` (0xff). -/
def decChar (c : Char) : Option Nat :=
  let i := encodeURL.indexOf c
  if i < 64 then some i else none

def padChar : Char := '='

/-- The loop of `Encoding.Encode`: three bytes give four characters, a remainder of one or
two bytes is padded with `=`. -/
def encodeChars : List Byte → List Char
  | a :: b :: c :: rest =>
      encChar (a.val / 4) :: encChar (a.val % 4 * 16 + b.val / 16) ::
      encChar (b.val % 16 * 4 + c.val / 64) :: encChar (c.val % 64) :: encodeChars rest
  | [a, b] =>
      [encChar (a.val / 4), encChar (a.val % 4 * 16 + b.val / 16),
       encChar (b.val % 16 * 4), padChar]
  | [a] => [encChar (a.val / 4), encChar (a.val % 4 * 16), padChar, padChar]
  | [] => []

/-- The function `encodeToString`: `base64.URLEncoding.EncodeToString`. -/
def encodeToString (bytes : List Byte) : String := String.mk (encodeChars bytes)

def mkByte (n : Nat) : Byte := ⟨n % 256, Nat.mod_lt _ (by decide)⟩

/-- The bytes a quantum of `dlen` six-bit values decodes to (`dlen - 1` bytes), as in the
tail of `decodeQuantum` (non-strict: stray low bits are dropped). -/
def quantumBytes : List Nat → List Byte
  | [a, b, c, d] => [mkByte (a * 4 + b / 16), mkByte (b % 16 * 16 + c / 4), mkByte (c % 4 * 64 + d)]
  | [a, b, c] => [mkByte (a * 4 + b / 16), mkByte (b % 16 * 16 + c / 4)]
  | [a, b] => [mkByte (a * 4 + b / 16)]
  | _ => []

def isNewline (c : Char) : Bool := c == '\n' || c == '\r'

/-- Skips `\r` and `\n`, as the decoder does between characters. -/
def skipNewlines : List Char → List Char
  | c :: cs => if isNewline c then skipNewlines cs else c :: cs
  | [] => []

/-- The decoder `Encoding.Decode` for the padded URL encoding, non-strict: `acc` holds the
six-bit values of the quantum being read. Returns the bytes written and whether the input
was corrupt; the bytes of every quantum read before the corruption are kept. -/
def decodeChars : List Char → List Nat → List Byte × Bool
  | [], [] => ([], false)
  | [], _ :: _ => ([], true)
  | c :: cs, acc =>
      match decChar c with
      | some v =>
          if acc.length = 3 then
            let (bs, e) := decodeChars cs []
            (quantumBytes (acc ++ [v]) ++ bs, e)
          else decodeChars cs (acc ++ [v])
      | none =>
          if isNewline c then decodeChars cs acc
          else if c ≠ padChar then ([], true)
          else if acc.length < 2 then ([], true)
          else if acc.length = 2 then
            match skipNewlines cs with
            | [] => ([], true)
            | c2 :: cs2 =>
                if c2 ≠ padChar then ([], true)
                else (quantumBytes acc, decide (skipNewlines cs2 ≠ []))
          else (quantumBytes acc, decide (skipNewlines cs ≠ []))

/-- The function `decodeFromString`: `base64.URLEncoding.DecodeString`. The second
component is `true` when Go returns a `CorruptInputError`. -/
def decodeFromString (token : String) : List Byte × Bool := decodeChars token.data []

/-! ## SHA-256 and constant-time comparison -/

/-- Words are 32-bit: every operation reduces modulo `2 ^ 32`. -/
def w32 (n : Nat) : Nat := n % 4294967296

def rotr (x n : Nat) : Nat := w32 (x / 2 ^ n + x * 2 ^ (32 - n))

def shr (x n : Nat) : Nat := x / 2 ^ n

def ch (x y z : Nat) : Nat := Nat.xor (Nat.land x y) (Nat.land (4294967295 - x) z)

def maj (x y z : Nat) : Nat := Nat.xor (Nat.xor (Nat.land x y) (Nat.land x z)) (Nat.land y z)

def bigSigma0 (x : Nat) : Nat := Nat.xor (Nat.xor (rotr x 2) (rotr x 13)) (rotr x 22)

def bigSigma1 (x : Nat) : Nat := Nat.xor (Nat.xor (rotr x 6) (rotr x 11)) (rotr x 25)

def smallSigma0 (x : Nat) : Nat := Nat.xor (Nat.xor (rotr x 7) (rotr x 18)) (shr x 3)

def smallSigma1 (x : Nat) : Nat := Nat.xor (Nat.xor (rotr x 17) (rotr x 19)) (shr x 10)

/-- The round constants `_K`. -/
def sha256K : List Nat :=
  [0x428a2f98, 0x71374491, 0xb5c0fbcf, 0xe9b5dba5, 0x3956c25b, 0x59f111f1, 0x923f82a4, 0xab1c5ed5,
   0xd807aa98, 0x12835b01, 0x243185be, 0x550c7dc3, 0x72be5d74, 0x80deb1fe, 0x9bdc06a7, 0xc19bf174,
   0xe49b69c1, 0xefbe4786, 0x0fc19dc6, 0x240ca1cc, 0x2de92c6f, 0x4a7484aa, 0x5cb0a9dc, 0x76f988da,
   0x983e5152, 0xa831c66d, 0xb00327c8, 0xbf597fc7, 0xc6e00bf3, 0xd5a79147, 0x06ca6351, 0x14292967,
   0x27b70a85, 0x2e1b2138, 0x4d2c6dfc, 0x53380d13, 0x650a7354, 0x766a0abb, 0x81c2c92e, 0x92722c85,
   0xa2bfe8a1, 0xa81a664b, 0xc24b8b70, 0xc76c51a3, 0xd192e819, 0xd6990624, 0xf40e3585, 0x106aa070,
   0x19a4c116, 0x1e376c08, 0x2748774c, 0x34b0bcb5, 0x391c0cb3, 0x4ed8aa4a, 0x5b9cca4f, 0x682e6ff3,
   0x748f82ee, 0x78a5636f, 0x84c87814, 0x8cc70208, 0x90befffa, 0xa4506ceb, 0xbef9a3f7, 0xc67178f2]

/-- The initial hash value. -/
def sha256Init : List Nat :=
  [0x6a09e667, 0xbb67ae85, 0x3c6ef372, 0xa54ff53a, 0x510e527f, 0x9b05688c, 0x1f83d9ab, 0x5be0cd19]

/-- Big-endian bytes of `n`, `k` of them. -/
def beBytes : Nat → Nat → List Byte
  | 0, _ => []
  | k + 1, n => beBytes k (n / 256) ++ [mkByte n]

/-- The message followed by `0x80`, zero bytes up to 56 modulo 64, and the bit length as a
64-bit big-endian number. -/
def sha256Pad (msg : List Byte) : List Byte :=
  let l := msg.length
  msg ++ [mkByte 0x80] ++ List.replicate ((119 - l % 64) % 64) (mkByte 0) ++
    beBytes 8 (l * 8 % 2 ^ 64)

/-- Big-endian words of a block. -/
def beWords : List Byte → List Nat
  | a :: b :: c :: d :: rest =>
      (a.val * 16777216 + b.val * 65536 + c.val * 256 + d.val) :: beWords rest
  | _ => []

/-- Extends the message schedule by `k` words. -/
def sha256Schedule : Nat → List Nat → List Nat
  | 0, w => w
  | k + 1, w =>
      let t := w.length
      sha256Schedule k (w ++ [w32 (smallSigma1 (w.getD (t - 2) 0) + w.getD (t - 7) 0 +
        smallSigma0 (w.getD (t - 15) 0) + w.getD (t - 16) 0)])

/-- One round on the working variables `a .. h`. -/
def sha256Round (v : List Nat) (kw : Nat × Nat) : List Nat :=
  match v with
  | [a, b, c, d, e, f, g, h] =>
      let t1 := w32 (h + bigSigma1 e + ch e f g + kw.1 + kw.2)
      let t2 := w32 (bigSigma0 a + maj a b c)
      [w32 (t1 + t2), a, b, c, w32 (d + t1), e, f, g]
  | _ => v

/-- The compression of one 64-byte block into the state. -/
def sha256Block (st : List Nat) (block : List Byte) : List Nat :=
  let w := sha256Schedule 48 (beWords block)
  let v := (sha256K.zip w).foldl sha256Round st
  List.zipWith (fun x y => w32 (x + y)) st v

/-- Runs the compression over `k` consecutive blocks. -/
def sha256Blocks : Nat → List Nat → List Byte → List Nat
  | 0, st, _ => st
  | k + 1, st, bs => sha256Blocks k (sha256Block st (bs.take 64)) (bs.drop 64)

/-- The function `sha256.Sum256`. -/
def Sum256 (msg : List Byte) : List Byte :=
  let p := sha256Pad msg
  (sha256Blocks (p.length / 64) sha256Init p).flatMap (beBytes 4)

/-- The function `hash`. -/
def hash (bytes : List Byte) : List Byte := Sum256 bytes

/-- The loop of `subtle.ConstantTimeCompare`: the OR of the XORs of the paired bytes. -/
def xorFold : List Byte → List Byte → Nat → Nat
  | x :: xs, y :: ys, v => xorFold xs ys (v ||| (x.val ^^^ y.val))
  | _, _, v => v

/-- The function `subtle.ConstantTimeCompare`: 1 when the slices are equal, else 0. -/
def ConstantTimeCompare (x y : List Byte) : Nat :=
  if x.length ≠ y.length then 0
  else if xorFold x y 0 = 0 then 1 else 0

/-- The function `hashEquals`. -/
def hashEquals (token tokenHash : List Byte) : Bool :=
  ConstantTimeCompare (hash token) tokenHash == 1

/-- The function `encodedHashEquals`: both decode errors are discarded. -/
def encodedHashEquals (token tokenHash : String) : Bool :=
  let tokenBytes := (decodeFromString token).1
  let hashBytes := (decodeFromString tokenHash).1
  hashEquals tokenBytes hashBytes

/-! ## Validation: `emailRegex`, `isValidEmail`, `isValidPassword`, `getBaseUrl` -/

/-- Regular expressions over characters, as far as `emailRegex` needs them. -/
inductive Regex where
  | fail
  | eps
  | cls (p : Char → Bool)
  | cat (r s : Regex)
  | alt (r s : Regex)
  | star (r : Regex)

namespace Regex

/-- Whether the expression matches the empty text. -/
def nullable : Regex → Bool
  | fail => false
  | eps => true
  | cls _ => false
  | cat r s => nullable r && nullable s
  | alt r s => nullable r || nullable s
  | star _ => true

/-- The derivative of the expression by one character. -/
def deriv : Regex → Char → Regex
  | fail, _ => fail
  | eps, _ => fail
  | cls p, c => if p c then eps else fail
  | cat r s, c =>
      if nullable r then alt (cat (deriv r c) s) (deriv s c) else cat (deriv r c) s
  | alt r s, c => alt (deriv r c) (deriv s c)
  | star r, c => cat (deriv r c) (star r)

/-- Whether the whole text matches. -/
def matchWhole (r : Regex) (text : List Char) : Bool := nullable (text.foldl deriv r)

/-- The repetition `r+`. -/
def plus (r : Regex) : Regex := cat r (star r)

end Regex

/-- The class `[A-Z]` under the flag `(?i)`: the parser closes the range under simple case
folding, which adds `a`-`z`, U+017F (folds with `S`) and U+212A (folds with `K`). -/
def isFoldedLetter (c : Char) : Bool :=
  ('A' ≤ c && c ≤ 'Z') || ('a' ≤ c && c ≤ 'z') || c.toNat == 0x17F || c.toNat == 0x212A

def isDigit (c : Char) : Bool := '0' ≤ c && c ≤ '9'

/-- The class `[A-Z0-9._%+-]` under `(?i)`. -/
def isLocalChar (c : Char) : Bool :=
  isFoldedLetter c || isDigit c || c == '.' || c == '_' || c == '%' || c == '+' || c == '-'

/-- The class `[A-Z0-9.-]` under `(?i)`. -/
def isDomainChar (c : Char) : Bool :=
  isFoldedLetter c || isDigit c || c == '.' || c == '-'

/-- The pattern `^(?i)[A-Z0-9._%+-]+@[A-Z0-9.-]+\.[A-Z]{2,}$` between its anchors. -/
def emailRegex : Regex :=
  Regex.cat (Regex.plus (Regex.cls isLocalChar))
    (Regex.cat (Regex.cls (fun c => c == '@'))
      (Regex.cat (Regex.plus (Regex.cls isDomainChar))
        (Regex.cat (Regex.cls (fun c => c == '.'))
          (Regex.cat (Regex.cls isFoldedLetter)
            (Regex.cat (Regex.cls isFoldedLetter) (Regex.star (Regex.cls isFoldedLetter)))))))

/-- The call `emailRegex.MatchString(email)`: the pattern is anchored by `^` and `$` (no
multi-line flag), so it matches when the whole text does. -/
def emailRegexMatchString (email : String) : Bool := emailRegex.matchWhole email.data

/-- The builtin `len` on a string: the number of bytes. -/
def len (s : String) : Nat := s.utf8ByteSize

def passwordValidationMessage : String := "Password must be between 7 and 20 characters"

/-- The function `isValidPassword`. -/
def isValidPassword (password : String) : Bool :=
  decide (len password ≥ 7) && decide (len password ≤ 20)

/-- The function `isValidEmail`. -/
def isValidEmail (email : String) : Bool :=
  decide (len email ≤ 254) && decide (len email ≥ 6) && (emailRegexMatchString email == true)

/-- The function `strings.Index`; `none` stands for `-1`. Positions count characters; the
separators looked for are ASCII, so a position cuts the text where the byte index does. -/
def stringsIndex : List Char → List Char → Option Nat
  | [], sep => if sep = [] then some 0 else none
  | c :: cs, sep =>
      if sep.isPrefixOf (c :: cs) then some 0
      else (stringsIndex cs sep).map (fun i => i + 1)

/-- The function `getBaseUrl`. -/
def getBaseUrl (url : String) : String :=
  match stringsIndex url.data "://".data with
  | none => "https://endfirst.com"
  | some protoIndex =>
      match stringsIndex (url.data.drop (protoIndex + 3)) "/".data with
      | none => url
      | some firstSlash => String.mk (url.data.take (protoIndex + 3 + firstSlash))

/-! ## Data model -/

/-- Error values. The sentinels `Err...` are those of the backend; `other` is any error
produced by a library; `AuthError` and `LoggedError` are what `NewAuthError` and
`NewLoggedError` build around an inner error (`none` for `nil`). -/
inductive Error where
  | ErrUserNotFound
  | ErrUserAlreadyExists
  | ErrLoginNotFound
  | ErrSessionNotFound
  | ErrInvalidSessionId
  | ErrRememberMeNotFound
  | ErrRememberMeExpired
  | ErrRememberMeSelectorExists
  | ErrInvalidRenewsAtTime
  | ErrEmailVerifyCodeExists
  | ErrInvalidEmailVerifyCode
  | other (message : String)
  | AuthError (message : String) (innerError : Option Error)
  | LoggedError (message : String) (innerError : Option Error)

def NewAuthError (message : String) (innerError : Option Error) : Error :=
  Error.AuthError message innerError

def NewLoggedError (message : String) (innerError : Option Error) : Error :=
  Error.LoggedError message innerError

/-- The test `err == ErrSessionNotFound`. -/
def Error.isSessionNotFound : Error → Bool
  | Error.ErrSessionNotFound => true
  | _ => false

/-- The test `err == ErrRememberMeNotFound`. -/
def Error.isRememberMeNotFound : Error → Bool
  | Error.ErrRememberMeNotFound => true
  | _ => false

/-- Whether the error is an `AuthError`. -/
def Error.isAuthError : Error → Bool
  | Error.AuthError _ _ => true
  | _ => false

structure UserLogin where
  LoginId : Int
  UserId : Int
  LoginProviderId : Int
  ProviderKey : String
  deriving DecidableEq, Repr

structure UserLoginSession where
  LoginId : Int
  SessionId : String
  UserId : Int
  RenewsAt : Time
  ExpiresAt : Time
  IsHalfAuth : Bool
  deriving DecidableEq, Repr

structure UserLoginRememberMe where
  LoginId : Int
  Selector : String
  TokenHash : String
  RenewsAt : Time
  ExpiresAt : Time
  deriving DecidableEq, Repr

structure SessionCookie where
  SessionId : String
  RenewsAt : Time
  ExpiresAt : Time
  deriving DecidableEq, Repr

structure RememberMeCookie where
  Selector : String
  Token : String
  RenewsAt : Time
  ExpiresAt : Time
  deriving DecidableEq, Repr

structure SendVerifyParams where
  VerificationCode : String
  Email : String
  RefererBaseUrl : String
  deriving DecidableEq, Repr

/-- What `CookieStorer.Put` is given: a `*SessionCookie` or a `*RememberMeCookie`. -/
inductive CookieValue where
  | session (c : SessionCookie)
  | rememberMe (c : RememberMeCookie)
  deriving DecidableEq, Repr

/-! ## Collaborators and the world -/

/-- The interface `BackendQuerier`, as the session store calls it: each method takes the
collaborators' state and returns its result with the new state. A method that succeeds
returns non-nil pointers; the remember-me of `NewLoginSession` is read by the store only
when it asked for one. -/
structure BackendQuerier (σ : Type) where
  GetUserLogin : String → String → σ → Except Error UserLogin × σ
  NewLoginSession : Int → String → Time → Time → Bool → String → String → Time → Time → σ →
    Except Error (UserLoginSession × UserLoginRememberMe) × σ
  GetSession : String → σ → Except Error UserLoginSession × σ
  RenewSession : String → Time → σ → Except Error UserLoginSession × σ
  GetRememberMe : String → σ → Except Error UserLoginRememberMe × σ
  RenewRememberMe : String → Time → σ → Except Error UserLoginRememberMe × σ
  AddUser : String → String → String → Time → Time → σ → Except Error UserLoginSession × σ
  VerifyEmail : String → String → Time → Time → σ →
    Except Error (UserLoginSession × String) × σ
  CreateProfileAndInvalidateSessions : Int → String → String → String → String → String →
    Time → Time → σ → Except Error UserLoginSession × σ

/-- The interface `Mailer`. -/
structure Mailer (σ : Type) where
  SendVerify : String → SendVerifyParams → σ → Option Error × σ
  SendWelcome : String → σ → Option Error × σ

/-- The interface `CookieStorer`. `Get` has one entry per type of its out-parameter. -/
structure CookieStorer (σ : Type) where
  GetSessionCookie : String → σ → Except Error SessionCookie × σ
  GetRememberMeCookie : String → σ → Except Error RememberMeCookie × σ
  Put : String → CookieValue → σ → Option Error × σ
  Delete : String → σ → σ

/-- A call through one of the interfaces, with its arguments. -/
inductive Event where
  | GetUserLogin (email loginProvider : String)
  | NewLoginSession (loginId : Int) (sessionId : String) (renewsAt expiresAt : Time)
      (includeRememberMe : Bool) (selector tokenHash : String)
      (rememberMeRenewsAt rememberMeExpiresAt : Time)
  | GetSession (sessionId : String)
  | RenewSession (sessionId : String) (renewsAt : Time)
  | GetRememberMe (selector : String)
  | RenewRememberMe (selector : String) (renewsAt : Time)
  | AddUser (email emailVerifyHash sessionId : String) (renewsAt expiresAt : Time)
  | VerifyEmail (emailVerifyHash sessionId : String) (renewsAt expiresAt : Time)
  | CreateProfileAndInvalidateSessions (loginId : Int)
      (passwordHash fullName organization picturePath sessionId : String)
      (expiresAt renewsAt : Time)
  | CookieGet (name : String)
  | CookiePut (name : String) (value : CookieValue)
  | CookieDelete (name : String)
  | SendVerify (email : String) (params : SendVerifyParams)
  | SendWelcome (email : String)
  deriving DecidableEq, Repr

namespace Event

/-- A call of a method of the backend. -/
def isBackend : Event → Bool
  | CookieGet _ => false
  | CookiePut _ _ => false
  | CookieDelete _ => false
  | SendVerify _ _ => false
  | SendWelcome _ => false
  | _ => true

/-- A call of `Put` or `Delete` on the cookie store. -/
def isCookieWrite : Event → Bool
  | CookiePut _ _ => true
  | CookieDelete _ => true
  | _ => false

/-- A call of `Put` on the cookie store. -/
def isCookiePut : Event → Bool
  | CookiePut _ _ => true
  | _ => false

/-- A call of a method of the mailer. -/
def isMail : Event → Bool
  | SendVerify _ _ => true
  | SendWelcome _ => true
  | _ => false

/-- A call of `RenewSession` or `RenewRememberMe`. -/
def isRenew : Event → Bool
  | RenewSession _ _ => true
  | RenewRememberMe _ _ => true
  | _ => false

/-- A call of `RenewSession`. -/
def isRenewSession : Event → Bool
  | RenewSession _ _ => true
  | _ => false

/-- A call of `GetRememberMe` or `RenewRememberMe`. -/
def isRememberMeBackend : Event → Bool
  | GetRememberMe _ => true
  | RenewRememberMe _ _ => true
  | _ => false

end Event

/-- Everything outside the session store: the state of the collaborators, the clock (the
value of the `k`-th `time.Now()`), the random source (the outcome of the `k`-th
`rand.Read`: an error, or the bytes it fills in), and the calls made so far. -/
structure World (σ : Type) where
  ext : σ
  clock : Nat → Int
  clockReads : Nat
  rand : Nat → Except Error (Nat → Byte)
  randReads : Nat
  trace : List Event

/-- The struct `SessionStore`: `referer` is `r.Referer()` and `basicAuth` is
`r.BasicAuth()`; the two cookie names are the package variables `NewSessionStore` sets;
`LoginProviderDefaultName` is the package constant of that name. -/
structure SessionStore (σ : Type) where
  backend : BackendQuerier σ
  mailer : Mailer σ
  cookieStore : CookieStorer σ
  referer : String
  basicAuth : Option (String × String)
  sessionCookieName : String
  rememberMeCookieName : String
  LoginProviderDefaultName : String

section Store

variable {σ : Type}

/-- The call `time.Now()`. -/
def timeNow (w : World σ) : Time × World σ :=
  ({ nanos := w.clock w.clockReads, loc := Location.Local },
   { w with clockReads := w.clockReads + 1 })

/-- A call through an interface: recorded, then run on the collaborators' state. -/
def call {α : Type} (e : Event) (f : σ → α × σ) (w : World σ) : α × World σ :=
  ((f w.ext).1, { w with ext := (f w.ext).2, trace := w.trace ++ [e] })

/-- The function `generateRandomBytes`. -/
def generateRandomBytes (n : Nat) (w : World σ) : Except Error (List Byte) × World σ :=
  match w.rand w.randReads with
  | Except.error err => (Except.error err, { w with randReads := w.randReads + 1 })
  | Except.ok b => (Except.ok ((List.range n).map b), { w with randReads := w.randReads + 1 })

/-- The function `generateRandomString`. -/
def generateRandomString (w : World σ) : Except Error String × World σ :=
  match generateRandomBytes 32 w with
  | (Except.error err, w) => (Except.error err, w)
  | (Except.ok bytes, w) => (Except.ok (encodeToString bytes), w)

/-- The function `generateStringAndHash`. -/
def generateStringAndHash (w : World σ) : Except Error (String × String) × World σ :=
  match generateRandomBytes 32 w with
  | (Except.error err, w) => (Except.error err, w)
  | (Except.ok b, w) => (Except.ok (encodeToString b, encodeToString (hash b)), w)

/-- The function `generateSelectorTokenAndHash`. -/
def generateSelectorTokenAndHash (w : World σ) :
    Except Error (String × String × String) × World σ :=
  match generateRandomString w with
  | (Except.error err, w) =>
      (Except.error (NewLoggedError "Unable to generate rememberMe selector" (some err)), w)
  | (Except.ok selector, w) =>
      match generateStringAndHash w with
      | (Except.error err, w) =>
          (Except.error (NewLoggedError "Unable to generate rememberMe token" (some err)), w)
      | (Except.ok (token, tokenHash), w) => (Except.ok (selector, token, tokenHash), w)

def getSessionCookie (s : SessionStore σ) (w : World σ) : Except Error SessionCookie × World σ :=
  call (Event.CookieGet s.sessionCookieName)
    (s.cookieStore.GetSessionCookie s.sessionCookieName) w

def getRememberMeCookie (s : SessionStore σ) (w : World σ) :
    Except Error RememberMeCookie × World σ :=
  call (Event.CookieGet s.rememberMeCookieName)
    (s.cookieStore.GetRememberMeCookie s.rememberMeCookieName) w

def deleteSessionCookie (s : SessionStore σ) (w : World σ) : World σ :=
  (call (Event.CookieDelete s.sessionCookieName)
    (fun x => ((), s.cookieStore.Delete s.sessionCookieName x)) w).2

def deleteRememberMeCookie (s : SessionStore σ) (w : World σ) : World σ :=
  (call (Event.CookieDelete s.rememberMeCookieName)
    (fun x => ((), s.cookieStore.Delete s.rememberMeCookieName x)) w).2

def saveSessionCookie (s : SessionStore σ) (sessionId : String) (renewsAt expiresAt : Time)
    (w : World σ) : Option Error × World σ :=
  let cookie : SessionCookie :=
    { SessionId := sessionId, RenewsAt := renewsAt, ExpiresAt := expiresAt }
  match call (Event.CookiePut s.sessionCookieName (CookieValue.session cookie))
      (s.cookieStore.Put s.sessionCookieName (CookieValue.session cookie)) w with
  | (some err, w) => (some (NewAuthError "Error saving session cookie" (some err)), w)
  | (none, w) => (none, w)

def saveRememberMeCookie (s : SessionStore σ) (selector token : String)
    (renewsAt expiresAt : Time) (w : World σ) : Option Error × World σ :=
  let cookie : RememberMeCookie :=
    { Selector := selector, Token := token, RenewsAt := renewsAt, ExpiresAt := expiresAt }
  call (Event.CookiePut s.rememberMeCookieName (CookieValue.rememberMe cookie))
    (s.cookieStore.Put s.rememberMeCookieName (CookieValue.rememberMe cookie)) w

/-! ## The session store -/

/-- The method `getRememberMe`. -/
def getRememberMe (s : SessionStore σ) (w : World σ) :
    Except Error UserLoginRememberMe × World σ :=
  match getRememberMeCookie s w with
  | (Except.error err, w) =>
      (Except.error (NewAuthError "RememberMe cookie not found" (some err)), w)
  | (Except.ok cookie, w) =>
      match timeNow w with
      | (t1, w) =>
          if cookie.ExpiresAt.Before t1.UTC then
            (Except.error (NewAuthError "RememberMe cookie has expired" none),
              deleteRememberMeCookie s w)
          else
            match call (Event.GetRememberMe cookie.Selector)
                (s.backend.GetRememberMe cookie.Selector) w with
            | (Except.error err, w) =>
                (Except.error (NewLoggedError "Unable to find matching RememberMe in DB" (some err)),
                  if err.isRememberMeNotFound then deleteRememberMeCookie s w else w)
            | (Except.ok rememberMe, w) =>
                if !encodedHashEquals cookie.Token rememberMe.TokenHash then
                  (Except.error
                      (NewLoggedError "RememberMe cookie doesn't match backend token" none),
                    deleteRememberMeCookie s w)
                else
                  match timeNow w with
                  | (t2, w) =>
                      if rememberMe.RenewsAt.Before t2.UTC then
                        match timeNow w with
                        | (t3, w) =>
                            match call
                                (Event.RenewRememberMe cookie.Selector
                                  (t3.UTC.Add rememberMeRenewDuration))
                                (s.backend.RenewRememberMe cookie.Selector
                                  (t3.UTC.Add rememberMeRenewDuration)) w with
                            | (Except.error err, w) =>
                                (Except.error
                                    (NewLoggedError "Unable to renew RememberMe" (some err)),
                                  if err.isRememberMeNotFound then deleteRememberMeCookie s w
                                  else w)
                            | (Except.ok renewed, w) => (Except.ok renewed, w)
                      else (Except.ok rememberMe, w)

/-- The first branch of `renewSession` (the body of its `if`): the renew time has passed
and the expiry has not. -/
def renewSessionSoft (s : SessionStore σ) (sessionId : String) (w : World σ) :
    Except Error UserLoginSession × World σ :=
  match timeNow w with
  | (t, w) =>
      match call (Event.RenewSession sessionId (t.UTC.Add sessionRenewDuration))
          (s.backend.RenewSession sessionId (t.UTC.Add sessionRenewDuration)) w with
      | (Except.error err, w) =>
          (Except.error (NewLoggedError "Unable to renew session" (some err)), w)
      | (Except.ok session, w) =>
          match saveSessionCookie s session.SessionId session.RenewsAt session.ExpiresAt w with
          | (some err, w) => (Except.error err, w)
          | (none, w) => (Except.ok session, w)

/-- The rest of `renewSession`, after its `if`: a remember-me is required. -/
def renewSessionHard (s : SessionStore σ) (sessionId : String) (w : World σ) :
    Except Error UserLoginSession × World σ :=
  match getRememberMe s w with
  | (Except.error err, w) =>
      (Except.error (NewAuthError "Unable to renew session" (some err)), w)
  | (Except.ok _, w) =>
      match timeNow w with
      | (t, w) =>
          match call (Event.RenewSession sessionId (t.UTC.Add sessionRenewDuration))
              (s.backend.RenewSession sessionId (t.UTC.Add sessionRenewDuration)) w with
          | (Except.error err, w) =>
              (Except.error (NewLoggedError "Problem renewing session" (some err)),
                if err.isSessionNotFound then deleteSessionCookie s w else w)
          | (Except.ok session, w) =>
              match saveSessionCookie s session.SessionId session.RenewsAt session.ExpiresAt w with
              | (some err, w) => (Except.error err, w)
              | (none, w) => (Except.ok session, w)

/-- The method `renewSession`. The second `time.Now()` of the condition is read only when
the first comparison holds. -/
def renewSession (s : SessionStore σ) (sessionId : String) (renewsAt expiresAt : Time)
    (w : World σ) : Except Error UserLoginSession × World σ :=
  match timeNow w with
  | (t1, w) =>
      if renewsAt.Before t1.UTC then
        match timeNow w with
        | (t2, w) =>
            if expiresAt.After t2.UTC then renewSessionSoft s sessionId w
            else renewSessionHard s sessionId w
      else renewSessionHard s sessionId w

/-- The part of `GetSession` after the renewal test: the backend is asked for the session. -/
def getSessionFromBackend (s : SessionStore σ) (cookie : SessionCookie) (w : World σ) :
    Except Error UserLoginSession × World σ :=
  match call (Event.GetSession cookie.SessionId) (s.backend.GetSession cookie.SessionId) w with
  | (Except.error err, w) =>
      (Except.error (NewLoggedError "Failed to verify session" (some err)),
        if err.isSessionNotFound then deleteSessionCookie s w else w)
  | (Except.ok session, w) => (Except.ok session, w)

/-- The method `GetSession`. The second `time.Now()` of the condition is read only when
the first comparison fails. -/
def GetSession (s : SessionStore σ) (w : World σ) : Except Error UserLoginSession × World σ :=
  match getSessionCookie s w with
  | (Except.error err, w) =>
      (Except.error (NewAuthError "Session cookie not found" (some err)), w)
  | (Except.ok cookie, w) =>
      match timeNow w with
      | (t1, w) =>
          if cookie.RenewsAt.Before t1.UTC then
            renewSession s cookie.SessionId cookie.RenewsAt cookie.ExpiresAt w
          else
            match timeNow w with
            | (t2, w) =>
                if cookie.ExpiresAt.Before t2.UTC then
                  renewSession s cookie.SessionId cookie.RenewsAt cookie.ExpiresAt w
                else getSessionFromBackend s cookie w

/-- The method `createSession`. The four times handed to `NewLoginSession` are four
readings of the clock, taken from left to right. -/
def createSession (s : SessionStore σ) (loginId : Int) (rememberMe : Bool) (w : World σ) :
    Except Error UserLoginSession × World σ :=
  let gen : Except Error (String × String × String) × World σ :=
    if rememberMe then generateSelectorTokenAndHash w else (Except.ok ("", "", ""), w)
  match gen with
  | (Except.error err, w) =>
      (Except.error (NewLoggedError "Unable to generate RememberMe" (some err)), w)
  | (Except.ok (selector, token, tokenHash), w) =>
      match generateRandomString w with
      | (Except.error _, w) =>
          (Except.error (NewLoggedError "Problem generating sessionId" none), w)
      | (Except.ok sessionId, w) =>
          match timeNow w with
          | (t1, w) =>
          match timeNow w with
          | (t2, w) =>
          match timeNow w with
          | (t3, w) =>
          match timeNow w with
          | (t4, w) =>
              match call
                  (Event.NewLoginSession loginId sessionId (t1.UTC.Add sessionRenewDuration)
                    (t2.UTC.Add sessionExpireDuration) rememberMe selector tokenHash
                    (t3.UTC.Add rememberMeRenewDuration) (t4.UTC.Add rememberMeExpireDuration))
                  (s.backend.NewLoginSession loginId sessionId
                    (t1.UTC.Add sessionRenewDuration) (t2.UTC.Add sessionExpireDuration)
                    rememberMe selector tokenHash (t3.UTC.Add rememberMeRenewDuration)
                    (t4.UTC.Add rememberMeExpireDuration)) w with
              | (Except.error err, w) =>
                  (Except.error (NewLoggedError "Unable to create new session" (some err)), w)
              | (Except.ok (session, remember), w) =>
                  match getSessionCookie s w with
                  | (_, w) =>
                      let saved : Option Error × World σ :=
                        if rememberMe then
                          saveRememberMeCookie s selector token remember.RenewsAt
                            remember.ExpiresAt w
                        else (none, w)
                      match saved with
                      | (some err, w) =>
                          (Except.error
                            (NewAuthError "Unable to save rememberMe cookie" (some err)), w)
                      | (none, w) =>
                          match saveSessionCookie s session.SessionId session.RenewsAt
                              session.ExpiresAt w with
                          | (some err, w) => (Except.error err, w)
                          | (none, w) => (Except.ok session, w)

/-- The method `login`. -/
def login (s : SessionStore σ) (email password : String) (rememberMe : Bool) (w : World σ) :
    Except Error UserLoginSession × World σ :=
  if !isValidEmail email then
    (Except.error (NewAuthError "Please enter a valid email address." none), w)
  else if !isValidPassword password then
    (Except.error (NewAuthError passwordValidationMessage none), w)
  else
    match call (Event.GetUserLogin email s.LoginProviderDefaultName)
        (s.backend.GetUserLogin email s.LoginProviderDefaultName) w with
    | (Except.error err, w) =>
        (Except.error (NewLoggedError "Invalid username or password" (some err)), w)
    | (Except.ok login, w) =>
        if !hashEquals (stringBytes password) (decodeFromString login.ProviderKey).1 then
          (Except.error (NewLoggedError "Invalid username or password" none), w)
        else createSession s login.LoginId rememberMe w

/-- The method `GetBasicAuth`. -/
def GetBasicAuth (s : SessionStore σ) (w : World σ) : Except Error UserLoginSession × World σ :=
  match GetSession s w with
  | (Except.ok session, w) => (Except.ok session, w)
  | (Except.error _, w) =>
      match s.basicAuth with
      | some (email, password) =>
          match login s email password false w with
          | (Except.error err, w) =>
              (Except.error
                (NewLoggedError "Unable to login with provided credentials" (some err)), w)
          | (Except.ok session, w) => (Except.ok session, w)
      | none =>
          (Except.error (NewAuthError "Problem decoding credentials from basic auth" none), w)

/-- The method `addUser`. -/
def addUser (s : SessionStore σ) (email : String) (w : World σ) :
    Except Error (UserLoginSession × String) × World σ :=
  match generateStringAndHash w with
  | (Except.error err, w) =>
      (Except.error
        (NewLoggedError "Problem generating email confirmation code" (some err)), w)
  | (Except.ok (emailConfirmCode, emailConfimHash), w) =>
      match generateRandomString w with
      | (Except.error err, w) =>
          (Except.error (NewLoggedError "Problem generating sessionId" (some err)), w)
      | (Except.ok sessionId, w) =>
          match timeNow w with
          | (t1, w) =>
          match timeNow w with
          | (t2, w) =>
              match call
                  (Event.AddUser email emailConfimHash sessionId
                    (t1.UTC.Add sessionRenewDuration) (t2.UTC.Add sessionExpireDuration))
                  (s.backend.AddUser email emailConfimHash sessionId
                    (t1.UTC.Add sessionRenewDuration) (t2.UTC.Add sessionExpireDuration)) w with
              | (Except.error err, w) =>
                  (Except.error
                    (NewLoggedError "Problem adding user to database" (some err)), w)
              | (Except.ok session, w) => (Except.ok (session, emailConfirmCode), w)

/-- The slice `emailConfirmCode[:len(emailConfirmCode)-1]`: the text without its last
byte. The text sliced is base64 output, whose bytes are its characters. -/
def dropLastByte (code : String) : String := String.mk code.data.dropLast

/-- The method `register`. -/
def register (s : SessionStore σ) (email : String) (w : World σ) : Option Error × World σ :=
  if !isValidEmail email then (some (NewAuthError "Invalid email" none), w)
  else
    match addUser s email w with
    | (Except.error err, w) => (some (NewLoggedError "Unable to save user" (some err)), w)
    | (Except.ok (session, emailConfirmCode), w) =>
        match saveSessionCookie s session.SessionId session.RenewsAt session.ExpiresAt w with
        | (some err, w) => (some err, w)
        | (none, w) =>
            let code := dropLastByte emailConfirmCode
            let params : SendVerifyParams :=
              { VerificationCode := code, Email := email,
                RefererBaseUrl := getBaseUrl s.referer }
            match call (Event.SendVerify email params) (s.mailer.SendVerify email params) w with
            | (some err, w) =>
                (some (NewLoggedError "Unable to send verification email" (some err)), w)
            | (none, w) => (none, w)

/-- The method `createProfile`. -/
def createProfile (s : SessionStore σ) (fullName organization password picturePath : String)
    (w : World σ) : Option Error × World σ :=
  match GetSession s w with
  | (Except.error err, w) => (some (NewLoggedError "Unable to get session" (some err)), w)
  | (Except.ok session, w) =>
      let passwordHash := encodeToString (hash (stringBytes password))
      match call
          (Event.CreateProfileAndInvalidateSessions session.LoginId passwordHash fullName
            organization picturePath session.SessionId session.ExpiresAt session.RenewsAt)
          (s.backend.CreateProfileAndInvalidateSessions session.LoginId passwordHash fullName
            organization picturePath session.SessionId session.ExpiresAt session.RenewsAt)
          w with
      | (Except.error err, w) =>
          (some (NewLoggedError "Unable to create profile" (some err)), w)
      | (Except.ok session, w) =>
          match saveSessionCookie s session.SessionId session.RenewsAt session.ExpiresAt w with
          | (some err, w) => (some err, w)
          | (none, w) => (none, w)

/-- The method `verifyEmail`. The expiry handed to `VerifyEmail` is `time.Now()` without
`.UTC()`. -/
def verifyEmail (s : SessionStore σ) (emailVerificationCode : String) (w : World σ) :
    Option Error × World σ :=
  let sid : Except Error String × World σ :=
    match getSessionCookie s w with
    | (Except.ok cookie, w) => (Except.ok cookie.SessionId, w)
    | (Except.error _, w) => generateRandomString w
  match sid with
  | (Except.error err, w) =>
      (some (NewLoggedError "Unable to generate sessionId" (some err)), w)
  | (Except.ok sessionId, w) =>
      match decodeFromString (emailVerificationCode ++ "=") with
      | (_, true) =>
          (some (NewLoggedError "Invalid verification code"
            (some (Error.other "illegal base64 data"))), w)
      | (data, false) =>
          let emailVerifyHash := encodeToString (hash data)
          match timeNow w with
          | (t1, w) =>
          match timeNow w with
          | (t2, w) =>
              match call
                  (Event.VerifyEmail emailVerifyHash sessionId
                    (t1.UTC.Add sessionRenewDuration) (t2.Add sessionExpireDuration))
                  (s.backend.VerifyEmail emailVerifyHash sessionId
                    (t1.UTC.Add sessionRenewDuration) (t2.Add sessionExpireDuration)) w with
              | (Except.error err, w) =>
                  (some (NewLoggedError "Failed to verify email" (some err)), w)
              | (Except.ok (session, email), w) =>
                  match saveSessionCookie s session.SessionId session.RenewsAt
                      session.ExpiresAt w with
                  | (some err, w) => (some err, w)
                  | (none, w) =>
                      match call (Event.SendWelcome email) (s.mailer.SendWelcome email) w with
                      | (some err, w) =>
                          (some (NewLoggedError "Failed to send welcome email" (some err)), w)
                      | (none, w) => (none, w)

end Store

/-! ## The Redis session backend (`backendRedisSession.go`) -/

/-- The struct `loginSession` of the Redis backend. -/
structure loginSession where
  UserID : Int
  Email : String
  FullName : String
  SessionHash : String
  RenewTimeUTC : Time
  ExpireTimeUTC : Time
  deriving DecidableEq, Repr

/-- The struct `rememberMeSession` of the Redis backend, its fields in the order of the
literal in `CreateSession`. -/
structure rememberMeSession where
  UserID : Int
  Email : String
  Selector : String
  TokenHash : String
  RenewTimeUTC : Time
  ExpireTimeUTC : Time
  deriving DecidableEq, Repr

/-- The zero value `time.Time{}`: January 1, year 1, 00:00:00 UTC. -/
def zeroTime : Time := { nanos := -62135596800 * Second, loc := Location.UTC }

/-- The interface `onedb.DBer` as the session methods use it: `QueryStructRow` with a GET
command for a key, and the SET command with an expiry that `save` builds and executes.
The Go methods take the struct as an `interface{}`; there is one pair of fields for each
struct the backend passes. -/
structure DBer (δ : Type) where
  QueryStructRow : String → δ → Except Error loginSession × δ
  ExecuteSet : String → loginSession → Int → δ → Option Error × δ
  QueryStructRowRememberMe : String → δ → Except Error rememberMeSession × δ
  ExecuteSetRememberMe : String → rememberMeSession → Int → δ → Option Error × δ

/-- What the Redis backend works on: the database, and how many times the backend has
read the clock. -/
structure RedisWorld (δ : Type) where
  data : δ
  clockReads : Nat

/-- The struct `backendRedisSession`; `pfx` is its field `prefix`, and `clock` gives the
value of the `k`-th `time.Now()` of the backend. -/
structure backendRedisSession (δ : Type) where
  db : DBer δ
  pfx : String
  clock : Nat → Int

section Redis

variable {δ : Type}

/-- The call `time.Now()` inside the Redis backend. -/
def redisNow (r : backendRedisSession δ) (w : RedisWorld δ) : Time × RedisWorld δ :=
  ({ nanos := r.clock w.clockReads, loc := Location.Local },
   { w with clockReads := w.clockReads + 1 })

namespace backendRedisSession

def getSessionKey (r : backendRedisSession δ) (sessionHash : String) : String :=
  r.pfx ++ "/session/" ++ sessionHash

/-- The method `save` for a session value. -/
def save (r : backendRedisSession δ) (key : String) (value : loginSession)
    (expireSeconds : Int) (w : RedisWorld δ) : Option Error × RedisWorld δ :=
  ((r.db.ExecuteSet key value expireSeconds w.data).1,
   { w with data := (r.db.ExecuteSet key value expireSeconds w.data).2 })

/-- The method `GetSession`. -/
def GetSession (r : backendRedisSession δ) (sessionHash : String) (w : RedisWorld δ) :
    Except Error loginSession × RedisWorld δ :=
  ((r.db.QueryStructRow (r.getSessionKey sessionHash) w.data).1,
   { w with data := (r.db.QueryStructRow (r.getSessionKey sessionHash) w.data).2 })

/-- The method `saveSession`. `time.Since(t).Seconds() >= 0` holds exactly when the
duration `now - t` is not negative; `round(rememberMeExpireDuration.Seconds())` is the
number of seconds in thirty days. -/
def saveSession (r : backendRedisSession δ) (session : loginSession) (w : RedisWorld δ) :
    Option Error × RedisWorld δ :=
  match redisNow r w with
  | (t, w) =>
      if t.nanos - session.ExpireTimeUTC.nanos ≥ 0 then
        (some (Error.other "Unable to save expired session"), w)
      else
        r.save (r.getSessionKey session.SessionHash) session
          (rememberMeExpireDuration / Second) w

/-- The method `RenewSession`. -/
def RenewSession (r : backendRedisSession δ) (sessionHash : String) (renewTimeUTC : Time)
    (w : RedisWorld δ) : Except Error loginSession × RedisWorld δ :=
  match r.GetSession sessionHash w with
  | (Except.error err, w) => (Except.error err, w)
  | (Except.ok session, w) =>
      match redisNow r w with
      | (t1, w) =>
          let bumped : loginSession × RedisWorld δ :=
            if session.ExpireTimeUTC.Before t1.UTC then
              match redisNow r w with
              | (t2, w) =>
                  ({ session with ExpireTimeUTC := t2.UTC.Add sessionExpireDuration }, w)
            else (session, w)
          match bumped with
          | (session, w) =>
              let session := { session with RenewTimeUTC := renewTimeUTC }
              match r.saveSession session w with
              | (some err, w) => (Except.error err, w)
              | (none, w) => (Except.ok session, w)

def getRememberMeKey (r : backendRedisSession δ) (selector : String) : String :=
  r.pfx ++ "/rememberMe/" ++ selector

/-- The method `save` for a remember-me value. -/
def saveRememberMeValue (r : backendRedisSession δ) (key : String) (value : rememberMeSession)
    (expireSeconds : Int) (w : RedisWorld δ) : Option Error × RedisWorld δ :=
  ((r.db.ExecuteSetRememberMe key value expireSeconds w.data).1,
   { w with data := (r.db.ExecuteSetRememberMe key value expireSeconds w.data).2 })

/-- The method `saveRememberMe`. -/
def saveRememberMe (r : backendRedisSession δ) (rememberMe : rememberMeSession)
    (w : RedisWorld δ) : Option Error × RedisWorld δ :=
  match redisNow r w with
  | (t, w) =>
      if t.nanos - rememberMe.ExpireTimeUTC.nanos ≥ 0 then
        (some (Error.other "Unable to save expired rememberMe"), w)
      else
        r.saveRememberMeValue (r.getRememberMeKey rememberMe.Selector) rememberMe
          (rememberMeExpireDuration / Second) w

/-- The method `CreateSession`. Without `includeRememberMe` the remember-me returned is
the zero value of the struct. -/
def CreateSession (r : backendRedisSession δ) (userID : Int)
    (email fullname sessionHash : String) (sessionRenewTimeUTC sessionExpireTimeUTC : Time)
    (includeRememberMe : Bool) (rememberMeSelector rememberMeTokenHash : String)
    (rememberMeRenewTimeUTC rememberMeExpireTimeUTC : Time) (w : RedisWorld δ) :
    Except Error (loginSession × rememberMeSession) × RedisWorld δ :=
  let session : loginSession :=
    { UserID := userID, Email := email, FullName := fullname, SessionHash := sessionHash,
      RenewTimeUTC := sessionRenewTimeUTC, ExpireTimeUTC := sessionExpireTimeUTC }
  match r.saveSession session w with
  | (some err, w) => (Except.error err, w)
  | (none, w) =>
      if includeRememberMe then
        let rememberMe : rememberMeSession :=
          { UserID := userID, Email := email, Selector := rememberMeSelector,
            TokenHash := rememberMeTokenHash, RenewTimeUTC := rememberMeRenewTimeUTC,
            ExpireTimeUTC := rememberMeExpireTimeUTC }
        match r.saveRememberMe rememberMe w with
        | (some err, w) => (Except.error err, w)
        | (none, w) => (Except.ok (session, rememberMe), w)
      else
        (Except.ok (session,
          { UserID := 0, Email := "", Selector := "", TokenHash := "",
            RenewTimeUTC := zeroTime, ExpireTimeUTC := zeroTime }), w)

/-- The method `GetRememberMe`. -/
def GetRememberMe (r : backendRedisSession δ) (selector : String) (w : RedisWorld δ) :
    Except Error rememberMeSession × RedisWorld δ :=
  ((r.db.QueryStructRowRememberMe (r.getRememberMeKey selector) w.data).1,
   { w with data := (r.db.QueryStructRowRememberMe (r.getRememberMeKey selector) w.data).2 })

/-- The method `RenewRememberMe`. -/
def RenewRememberMe (r : backendRedisSession δ) (selector : String) (renewTimeUTC : Time)
    (w : RedisWorld δ) : Except Error rememberMeSession × RedisWorld δ :=
  match r.GetRememberMe selector w with
  | (Except.error err, w) => (Except.error err, w)
  | (Except.ok rememberMe, w) =>
      let rememberMe := { rememberMe with RenewTimeUTC := renewTimeUTC }
      match r.saveRememberMe rememberMe w with
      | (some err, w) => (Except.error err, w)
      | (none, w) => (Except.ok rememberMe, w)

end backendRedisSession

/-- A `loginSession` read as the `UserLoginSession` the session store expects: session
hash, renew time and expiry are the session id, `RenewsAt` and `ExpiresAt`. -/
def loginSession.toUserLoginSession (l : loginSession) : UserLoginSession :=
  { LoginId := l.UserID, SessionId := l.SessionHash, UserId := l.UserID,
    RenewsAt := l.RenewTimeUTC, ExpiresAt := l.ExpireTimeUTC, IsHalfAuth := false }

/-- The Redis `RenewSession` in the place of `BackendQuerier.RenewSession`. -/
def redisRenewSession (r : backendRedisSession δ) (sessionId : String) (renewsAt : Time)
    (w : RedisWorld δ) : Except Error UserLoginSession × RedisWorld δ :=
  match r.RenewSession sessionId renewsAt w with
  | (Except.error err, w) => (Except.error err, w)
  | (Except.ok session, w) => (Except.ok session.toUserLoginSession, w)

end Redis

/-! ## Concrete collaborators

A small collaborator on which the statements below are evaluated at concrete inputs. -/

/-- State of the fixture: the cookies of the request, and what the backend holds as its
session, remember-me and login (or the error it answers with). -/
structure Fixture where
  sessionCookie : Except Error SessionCookie
  rememberMeCookie : Except Error RememberMeCookie
  session : Except Error UserLoginSession
  rememberMe : Except Error UserLoginRememberMe
  login : Except Error UserLogin

def fixtureBackend : BackendQuerier Fixture where
  GetUserLogin := fun _ _ x => (x.login, x)
  NewLoginSession := fun loginId sessionId renewsAt expiresAt _ selector tokenHash rr re x =>
    (Except.ok
      ({ LoginId := loginId, SessionId := sessionId, UserId := 1, RenewsAt := renewsAt,
         ExpiresAt := expiresAt, IsHalfAuth := false },
       { LoginId := loginId, Selector := selector, TokenHash := tokenHash, RenewsAt := rr,
         ExpiresAt := re }), x)
  GetSession := fun _ x => (x.session, x)
  RenewSession := fun _ renewsAt x =>
    match x.session with
    | Except.error err => (Except.error err, x)
    | Except.ok v =>
        (Except.ok { v with RenewsAt := renewsAt },
         { x with session := Except.ok { v with RenewsAt := renewsAt } })
  GetRememberMe := fun _ x => (x.rememberMe, x)
  RenewRememberMe := fun _ renewsAt x =>
    match x.rememberMe with
    | Except.error err => (Except.error err, x)
    | Except.ok v =>
        (Except.ok { v with RenewsAt := renewsAt },
         { x with rememberMe := Except.ok { v with RenewsAt := renewsAt } })
  AddUser := fun _ _ sessionId renewsAt expiresAt x =>
    (Except.ok { LoginId := 1, SessionId := sessionId, UserId := 1, RenewsAt := renewsAt,
                 ExpiresAt := expiresAt, IsHalfAuth := true }, x)
  VerifyEmail := fun _ sessionId renewsAt expiresAt x =>
    (Except.ok ({ LoginId := 1, SessionId := sessionId, UserId := 1, RenewsAt := renewsAt,
                  ExpiresAt := expiresAt, IsHalfAuth := true }, "a@b.co"), x)
  CreateProfileAndInvalidateSessions := fun loginId passwordHash _ _ _ sessionId e r x =>
    (Except.ok { LoginId := loginId, SessionId := sessionId, UserId := 1, RenewsAt := r,
                 ExpiresAt := e, IsHalfAuth := false },
     { x with login := Except.ok { LoginId := loginId, UserId := 1, LoginProviderId := 1,
                                   ProviderKey := passwordHash } })

def fixtureStore : SessionStore Fixture where
  backend := fixtureBackend
  mailer := { SendVerify := fun _ _ x => (none, x), SendWelcome := fun _ x => (none, x) }
  cookieStore :=
    { GetSessionCookie := fun _ x => (x.sessionCookie, x)
      GetRememberMeCookie := fun _ x => (x.rememberMeCookie, x)
      Put := fun _ _ x => (none, x)
      Delete := fun _ x => x }
  referer := "https://example.com/register"
  basicAuth := none
  sessionCookieName := "Session"
  rememberMeCookieName := "RememberMe"
  LoginProviderDefaultName := "Default"

/-- A world over the fixture whose clock always reads `now` and whose random source
fills in the bytes `k, k + 1, ..` (modulo 256) on its `k`-th read. -/
def fixtureWorld (x : Fixture) (now : Int) : World Fixture where
  ext := x
  clock := fun _ => now
  clockReads := 0
  rand := fun k => Except.ok (fun i => mkByte (k + i))
  randReads := 0
  trace := []

/-- A stored session that renews at 50 and expires at 200. -/
def demoSession : UserLoginSession :=
  { LoginId := 1, SessionId := "sid", UserId := 1, RenewsAt := utc 50, ExpiresAt := utc 200,
    IsHalfAuth := false }

/-- A request with the session cookie of `demoSession` and no remember-me cookie. -/
def demoFixture : Fixture :=
  { sessionCookie := Except.ok { SessionId := "sid", RenewsAt := utc 50, ExpiresAt := utc 200 }
    rememberMeCookie := Except.error (Error.other "http: named cookie not present")
    session := Except.ok demoSession
    rememberMe := Except.error Error.ErrRememberMeNotFound
    login := Except.error Error.ErrUserNotFound }

/-- As `demoFixture`, but the backend no longer holds the session. -/
def demoFixtureNoSession : Fixture :=
  { demoFixture with session := Except.error Error.ErrSessionNotFound }

/-- As `demoFixture`, with a remember-me cookie that expires at 10. -/
def demoFixtureRememberMe : Fixture :=
  { demoFixture with
    rememberMeCookie :=
      Except.ok { Selector := "sel", Token := "", RenewsAt := utc 5, ExpiresAt := utc 10 } }

/-- What the in-memory database holds: the keys set so far, with their values. -/
structure MemoryData where
  sessions : List (String × loginSession)
  rememberMes : List (String × rememberMeSession)
  deriving DecidableEq, Repr

/-- An in-memory database behind `DBer`: a SET puts the value in front of the older ones,
a GET answers with the newest value of the key. -/
def memoryDB : DBer MemoryData where
  QueryStructRow := fun key d =>
    match d.sessions.lookup key with
    | some v => (Except.ok v, d)
    | none => (Except.error (Error.other "redigo: nil returned"), d)
  ExecuteSet := fun key value _ d => (none, { d with sessions := (key, value) :: d.sessions })
  QueryStructRowRememberMe := fun key d =>
    match d.rememberMes.lookup key with
    | some v => (Except.ok v, d)
    | none => (Except.error (Error.other "redigo: nil returned"), d)
  ExecuteSetRememberMe := fun key value _ d =>
    (none, { d with rememberMes := (key, value) :: d.rememberMes })

/-- A Redis backend over `memoryDB` whose clock always reads `now`. -/
def demoRedis (now : Int) : backendRedisSession MemoryData :=
  { db := memoryDB, pfx := "auth", clock := fun _ => now }

/-- A session store whose `GetSession` and `RenewSession` are those of `demoRedis`; the
Redis session backend has no counterpart for the other methods, which answer with an
error here. The request carries no cookie. -/
def redisFixtureStore (now : Int) :
    SessionStore (RedisWorld MemoryData) where
  backend :=
    { GetUserLogin := fun _ _ x => (Except.error Error.ErrUserNotFound, x)
      NewLoginSession := fun _ _ _ _ _ _ _ _ _ x => (Except.error Error.ErrLoginNotFound, x)
      GetSession := fun sessionId x =>
        match (demoRedis now).GetSession sessionId x with
        | (Except.error err, x) => (Except.error err, x)
        | (Except.ok session, x) => (Except.ok session.toUserLoginSession, x)
      RenewSession := redisRenewSession (demoRedis now)
      GetRememberMe := fun _ x => (Except.error Error.ErrRememberMeNotFound, x)
      RenewRememberMe := fun _ _ x => (Except.error Error.ErrRememberMeNotFound, x)
      AddUser := fun _ _ _ _ _ x => (Except.error Error.ErrUserAlreadyExists, x)
      VerifyEmail := fun _ _ _ _ x => (Except.error Error.ErrInvalidEmailVerifyCode, x)
      CreateProfileAndInvalidateSessions := fun _ _ _ _ _ _ _ _ x =>
        (Except.error Error.ErrLoginNotFound, x) }
  mailer := { SendVerify := fun _ _ x => (none, x), SendWelcome := fun _ x => (none, x) }
  cookieStore :=
    { GetSessionCookie := fun _ x =>
        (Except.error (Error.other "http: named cookie not present"), x)
      GetRememberMeCookie := fun _ x =>
        (Except.error (Error.other "http: named cookie not present"), x)
      Put := fun _ _ x => (none, x)
      Delete := fun _ x => x }
  referer := ""
  basicAuth := none
  sessionCookieName := "Session"
  rememberMeCookieName := "RememberMe"
  LoginProviderDefaultName := "Default"

/-- The session `sid` as stored, with the given renew time and expiry. -/
def storedSession (renews expires : Int) : loginSession :=
  { UserID := 1, Email := "a@b.co", FullName := "A B", SessionHash := "sid",
    RenewTimeUTC := utc renews, ExpireTimeUTC := utc expires }

/-- A world over `demoRedis` holding one stored session, with the store's clock at
`now`. -/
def redisFixtureWorld (stored : loginSession) (now : Int) :
    World (RedisWorld MemoryData) where
  ext :=
    { data := { sessions := [("auth/session/sid", stored)], rememberMes := [] }
      clockReads := 0 }
  clock := fun _ => now
  clockReads := 0
  rand := fun _ => Except.error (Error.other "rand: unavailable")
  randReads := 0
  trace := []

/-- As `demoFixture`, with the login of a user who registered but has set no password:
the provider key is empty. -/
def demoFixtureNoKey : Fixture :=
  { demoFixture with
    login := Except.ok { LoginId := 1, UserId := 1, LoginProviderId := 1, ProviderKey := "" } }

/-- A call of `CreateProfileAndInvalidateSessions`. -/
def Event.isCreateProfile : Event → Bool
  | Event.CreateProfileAndInvalidateSessions _ _ _ _ _ _ _ _ => true
  | _ => false

/-- A remember-me record of the Redis backend. -/
def storedRememberMe (userID : Int) (selector tokenHash : String) (renews expires : Int) :
    rememberMeSession :=
  { UserID := userID, Email := "a@b.co", Selector := selector, TokenHash := tokenHash,
    RenewTimeUTC := utc renews, ExpireTimeUTC := utc expires }

/-- The state of `demoRedis` when it holds the one remember-me `stored`, under the key of
its selector, and no session. -/
def redisRememberMeWorld (stored : rememberMeSession) : RedisWorld MemoryData :=
  { data :=
      { sessions := []
        rememberMes := [((demoRedis 0).getRememberMeKey stored.Selector, stored)] }
    clockReads := 0 }

/-- The texts a regular expression denotes. -/
inductive Regex.Matches : Regex → List Char → Prop where
  | eps : Regex.Matches Regex.eps []
  | cls (p : Char → Bool) (c : Char) (h : p c = true) : Regex.Matches (Regex.cls p) [c]
  | cat (r s : Regex) (a b : List Char) (ha : Regex.Matches r a) (hb : Regex.Matches s b) :
      Regex.Matches (Regex.cat r s) (a ++ b)
  | altLeft (r s : Regex) (a : List Char) (ha : Regex.Matches r a) :
      Regex.Matches (Regex.alt r s) a
  | altRight (r s : Regex) (a : List Char) (ha : Regex.Matches s a) :
      Regex.Matches (Regex.alt r s) a
  | starNil (r : Regex) : Regex.Matches (Regex.star r) []
  | starCons (r : Regex) (a b : List Char) (ha : Regex.Matches r a)
      (hb : Regex.Matches (Regex.star r) b) : Regex.Matches (Regex.star r) (a ++ b)

/-- Following the spec's words for `isValidEmail`: a letter, of either case. -/
def specLetter (c : Char) : Bool := ('A' ≤ c && c ≤ 'Z') || ('a' ≤ c && c ≤ 'z')

/-- Following the spec's words for `isValidEmail`: letters, digits and the characters
`. _ % + -`. -/
def specLocalChar (c : Char) : Bool :=
  specLetter c || isDigit c || c == '.' || c == '_' || c == '%' || c == '+' || c == '-'

/-- Following the spec's words for `isValidEmail`: letters, digits and the characters
`. -`. -/
def specDomainChar (c : Char) : Bool := specLetter c || isDigit c || c == '.' || c == '-'

/-- Following the spec's words for `isValidEmail`: between 6 and 254 characters, and of
the shape local + `@` + domain + `.` + tld. -/
def specValidEmail (e : String) : Prop :=
  6 ≤ e.length ∧ e.length ≤ 254 ∧
    ∃ loc domain tld : List Char, e.data = loc ++ '@' :: (domain ++ '.' :: tld) ∧
      loc ≠ [] ∧ (∀ c ∈ loc, specLocalChar c = true) ∧
      domain ≠ [] ∧ (∀ c ∈ domain, specDomainChar c = true) ∧
      2 ≤ tld.length ∧ (∀ c ∈ tld, specLetter c = true)

/-- Following the claim's words for `isValidEmail`: the test without its lower length
bound, `len(e) <= 254` and `emailRegex` matches `e`. -/
def isValidEmailWithoutLowerBound (email : String) : Bool :=
  decide (len email ≤ 254) && emailRegexMatchString email

end NginxAuth

namespace NginxAuth

/-! ## Lemmas on the byte utilities -/

theorem lor_eq_zero_iff (a b : Nat) : a ||| b = 0 ↔ a = 0 ∧ b = 0 := by
  constructor
  · intro h
    have h2 : ∀ i, (a ||| b).testBit i = false := by intro i; rw [h]; simp
    constructor
    · apply Nat.eq_of_testBit_eq
      intro i
      have := h2 i
      simp [Nat.testBit_or] at this
      simp [this.1]
    · apply Nat.eq_of_testBit_eq
      intro i
      have := h2 i
      simp [Nat.testBit_or] at this
      simp [this.2]
  · rintro ⟨rfl, rfl⟩
    simp

theorem xorFold_eq_zero_iff (x y : List Byte) (v : Nat) (hlen : x.length = y.length) :
    xorFold x y v = 0 ↔ v = 0 ∧ x = y := by
  induction x generalizing y v with
  | nil =>
      cases y with
      | nil => simp [xorFold]
      | cons b ys => simp at hlen
  | cons a xs ih =>
      cases y with
      | nil => simp at hlen
      | cons b ys =>
          simp only [List.length_cons, Nat.add_right_cancel_iff] at hlen
          simp only [xorFold, ih ys _ hlen, lor_eq_zero_iff, Nat.xor_eq_zero, List.cons.injEq]
          constructor
          · rintro ⟨⟨h1, h2⟩, h3⟩
            exact ⟨h1, Fin.ext h2, h3⟩
          · rintro ⟨h1, h2, h3⟩
            exact ⟨⟨h1, by rw [h2]⟩, h3⟩

theorem ConstantTimeCompare_eq_one_iff (x y : List Byte) :
    ConstantTimeCompare x y = 1 ↔ x = y := by
  unfold ConstantTimeCompare
  by_cases hlen : x.length = y.length
  · simp only [hlen, ne_eq, not_true_eq_false, if_false]
    rw [show (0:Nat) = 0 from rfl]
    by_cases h : xorFold x y 0 = 0
    · simp only [h, if_true, true_iff]
      exact ((xorFold_eq_zero_iff x y 0 hlen).1 h).2
    · simp only [h, if_false]
      constructor
      · intro h0; cases h0
      · intro hxy; exact absurd ((xorFold_eq_zero_iff x y 0 hlen).2 ⟨rfl, hxy⟩) h
  · simp only [ne_eq, hlen, not_false_eq_true, if_true]
    constructor
    · intro h0; cases h0
    · intro hxy; exact absurd (by rw [hxy]) hlen

theorem hashEquals_iff (token tokenHash : List Byte) :
    hashEquals token tokenHash = true ↔ hash token = tokenHash := by
  simp [hashEquals, ConstantTimeCompare_eq_one_iff]

theorem decChar_encChar : ∀ n : Fin 64, decChar (encChar n.val) = some n.val := by
  decide

theorem decChar_encChar_lt (n : Nat) (h : n < 64) : decChar (encChar n) = some n :=
  decChar_encChar ⟨n, h⟩

theorem decChar_padChar : decChar '=' = none := by decide

theorem decodeChars_encodeChars : ∀ (n : Nat) (b : List Byte), b.length = n →
    decodeChars (encodeChars b) [] = (b, false) := by
  intro n
  induction n using Nat.strong_induction_on with
  | _ n ih =>
    intro b hb
    match b, hb with
    | [], _ => simp [encodeChars, decodeChars]
    | [a], _ =>
        have h1 := decChar_encChar_lt (a.val / 4) (by omega)
        have h2 := decChar_encChar_lt (a.val % 4 * 16) (by omega)
        simp [encodeChars, decodeChars, h1, h2, decChar_padChar, isNewline, padChar,
          skipNewlines, quantumBytes, mkByte]
        apply Fin.ext
        simp
        omega
    | [a, b], _ =>
        have h1 := decChar_encChar_lt (a.val / 4) (by omega)
        have h2 := decChar_encChar_lt (a.val % 4 * 16 + b.val / 16) (by omega)
        have h3 := decChar_encChar_lt (b.val % 16 * 4) (by omega)
        simp [encodeChars, decodeChars, h1, h2, h3, decChar_padChar, isNewline, padChar,
          skipNewlines, quantumBytes, mkByte]
        constructor <;> (apply Fin.ext; simp; omega)
    | a :: b :: c :: rest, hb =>
        have h1 := decChar_encChar_lt (a.val / 4) (by omega)
        have h2 := decChar_encChar_lt (a.val % 4 * 16 + b.val / 16) (by omega)
        have h3 := decChar_encChar_lt (b.val % 16 * 4 + c.val / 64) (by omega)
        have h4 := decChar_encChar_lt (c.val % 64) (by omega)
        have hrest := ih rest.length (by simp at hb; omega) rest rfl
        simp [encodeChars, decodeChars, h1, h2, h3, h4, hrest, quantumBytes, mkByte]
        refine ⟨?_, ?_, ?_⟩ <;> (apply Fin.ext; simp; omega)

theorem decodeFromString_encodeToString (b : List Byte) :
    decodeFromString (encodeToString b) = (b, false) := by
  simp [decodeFromString, encodeToString, decodeChars_encodeChars b.length b rfl]

/-! ## Lemmas on the session store -/

theorem trace_intro (P : Event → Prop) (t evs : List Event) (h : ∀ e ∈ evs, P e) :
    ∃ evs', t ++ evs = t ++ evs' ∧ ∀ e ∈ evs', P e := ⟨evs, rfl, h⟩

/-- The events `getRememberMe` adds are reads and deletions of the remember-me cookie
and the two remember-me calls of the backend. -/
theorem getRememberMe_trace {σ : Type} (s : SessionStore σ) (w : World σ) :
    ∃ evs, (getRememberMe s w).2.trace = w.trace ++ evs ∧
      ∀ e ∈ evs, e = Event.CookieGet s.rememberMeCookieName ∨
        e = Event.CookieDelete s.rememberMeCookieName ∨ e.isRememberMeBackend = true := by
  unfold getRememberMe
  simp only [getRememberMeCookie, call, timeNow, deleteRememberMeCookie]
  repeat' split
  all_goals
    simp only [Prod.mk.injEq] at *
    casesm* _ ∧ _
    subst_vars
    simp only [List.append_assoc]
    exact trace_intro _ _ _ (by simp [Event.isRememberMeBackend])

theorem saveSessionCookie_snd {σ : Type} (s : SessionStore σ) (sessionId : String)
    (renewsAt expiresAt : Time) (w : World σ) :
    (saveSessionCookie s sessionId renewsAt expiresAt w).2 =
      { w with
        ext := (s.cookieStore.Put s.sessionCookieName
          (CookieValue.session
            { SessionId := sessionId, RenewsAt := renewsAt, ExpiresAt := expiresAt }) w.ext).2
        trace := w.trace ++ [Event.CookiePut s.sessionCookieName
          (CookieValue.session
            { SessionId := sessionId, RenewsAt := renewsAt, ExpiresAt := expiresAt })] } := by
  unfold saveSessionCookie
  simp only [call]
  split
  all_goals
    simp only [Prod.mk.injEq] at *
    casesm* _ ∧ _
    subst_vars
    rfl

theorem saveSessionCookie_fst {σ : Type} (s : SessionStore σ) (sessionId : String)
    (renewsAt expiresAt : Time) (w : World σ) :
    (saveSessionCookie s sessionId renewsAt expiresAt w).1 =
      ((s.cookieStore.Put s.sessionCookieName
          (CookieValue.session
            { SessionId := sessionId, RenewsAt := renewsAt, ExpiresAt := expiresAt })
          w.ext).1).map (fun err => NewAuthError "Error saving session cookie" (some err)) := by
  unfold saveSessionCookie
  simp only [call]
  split
  all_goals
    simp only [Prod.mk.injEq] at *
    casesm* _ ∧ _
    subst_vars
    simp [*]

/-- Splits an equation between pairs into its components. -/
theorem pair_eq {α β : Type} {p : α × β} {a : α} {b : β} (h : p = (a, b)) :
    p.1 = a ∧ p.2 = b := by
  subst h
  exact ⟨rfl, rfl⟩

/-! ## The claims -/

/-- Claim C4. When `renewsAt` is before now and `expiresAt` is after now, `renewSession`
calls `backend.RenewSession(sessionId, now + 5 minutes)` and nothing else before it: no
read of the remember-me cookie and no remember-me call of the backend. When the backend
fails, that call is the only one made. When it succeeds, the one further call is the `Put`
of a session cookie carrying the returned session's `SessionId`, `RenewsAt` and
`ExpiresAt`, and the session is returned once that `Put` reports no error. -/
theorem renewSession_soft_expired {σ : Type} (s : SessionStore σ) (w : World σ)
    (sessionId : String) (renewsAt expiresAt : Time) (now : Int)
    (hclock : ∀ k, w.clock k = now)
    (hrenew : renewsAt.nanos < now) (hexpire : expiresAt.nanos > now) :
    (∀ err,
      (s.backend.RenewSession sessionId ((utc now).Add sessionRenewDuration) w.ext).1 =
          Except.error err →
        (renewSession s sessionId renewsAt expiresAt w).2.trace =
          w.trace ++ [Event.RenewSession sessionId ((utc now).Add sessionRenewDuration)]) ∧
    (∀ session,
      (s.backend.RenewSession sessionId ((utc now).Add sessionRenewDuration) w.ext).1 =
          Except.ok session →
        (renewSession s sessionId renewsAt expiresAt w).2.trace =
          w.trace ++ [Event.RenewSession sessionId ((utc now).Add sessionRenewDuration),
            Event.CookiePut s.sessionCookieName
              (CookieValue.session
                { SessionId := session.SessionId, RenewsAt := session.RenewsAt,
                  ExpiresAt := session.ExpiresAt })] ∧
        ((s.cookieStore.Put s.sessionCookieName
            (CookieValue.session
              { SessionId := session.SessionId, RenewsAt := session.RenewsAt,
                ExpiresAt := session.ExpiresAt })
            (s.backend.RenewSession sessionId ((utc now).Add sessionRenewDuration)
              w.ext).2).1 = none →
          (renewSession s sessionId renewsAt expiresAt w).1 = Except.ok session)) := by
  have hexp : now < expiresAt.nanos := hexpire
  refine ⟨?_, ?_⟩
  · intro err h
    simp only [utc, Time.Add] at h
    simp [renewSession, renewSessionSoft, timeNow, call, Time.Before, Time.After, Time.UTC,
      Time.Add, utc, hclock, hrenew, hexp, h]
  · intro session h
    simp only [utc, Time.Add] at h
    simp only [renewSession, renewSessionSoft, timeNow, call, Time.Before, Time.After, Time.UTC,
        Time.Add, hclock, hrenew, hexp, h, decide_True, if_true, utc]
    split
    all_goals
      rename_i heq
      have h1 := (pair_eq heq).1
      have h2 := (pair_eq heq).2
      subst h2
      simp only [saveSessionCookie_fst, saveSessionCookie_snd] at h1 ⊢
      simp only [Option.map_eq_some', Option.map_eq_none'] at h1
      first
        | (obtain ⟨a, ha, -⟩ := h1
           simp [ha])
        | simp [h1]


theorem getRememberMe_clock {σ : Type} (s : SessionStore σ) (w : World σ) :
    (getRememberMe s w).2.clock = w.clock := by
  unfold getRememberMe
  simp only [getRememberMeCookie, call, timeNow, deleteRememberMeCookie]
  repeat' split
  all_goals
    simp only [Prod.mk.injEq] at *
    casesm* _ ∧ _
    subst_vars
    rfl

/-- Claim C2. Outside the soft-expired case (not both `renewsAt < now` and `expiresAt > now`)
`renewSession` first runs `getRememberMe` (on the world `w` with some clock readings
consumed). If that fails with `err`, the result is the `AuthError` wrapping `err`, and no
call added to the trace is a `RenewSession` or a cookie `Put`. If it succeeds, the next
call is `backend.RenewSession(sessionId, now + 5 min)`; when the backend succeeds the one
further call is the `Put` of a session cookie with the returned session's id and times,
and the session is returned once that `Put` reports no error. -/
theorem renewSession_requires_rememberMe {σ : Type} (s : SessionStore σ) (w : World σ)
    (sessionId : String) (renewsAt expiresAt : Time) (now : Int)
    (hclock : ∀ k, w.clock k = now)
    (hnot : ¬ (renewsAt.nanos < now ∧ expiresAt.nanos > now)) :
    ∃ k : Nat,
      (∀ err, (getRememberMe s { w with clockReads := k }).1 = Except.error err →
        (renewSession s sessionId renewsAt expiresAt w).1 =
            Except.error (Error.AuthError "Unable to renew session" (some err)) ∧
        ∃ evs, (renewSession s sessionId renewsAt expiresAt w).2.trace = w.trace ++ evs ∧
          ∀ e ∈ evs, e.isRenewSession = false ∧ e.isCookiePut = false) ∧
      (∀ rememberMe, (getRememberMe s { w with clockReads := k }).1 = Except.ok rememberMe →
        (∀ err,
          (s.backend.RenewSession sessionId ((utc now).Add sessionRenewDuration)
              (getRememberMe s { w with clockReads := k }).2.ext).1 = Except.error err →
            (renewSession s sessionId renewsAt expiresAt w).2.trace =
              (getRememberMe s { w with clockReads := k }).2.trace ++
                (Event.RenewSession sessionId ((utc now).Add sessionRenewDuration) ::
                  if err.isSessionNotFound then [Event.CookieDelete s.sessionCookieName]
                  else [])) ∧
        (∀ session,
          (s.backend.RenewSession sessionId ((utc now).Add sessionRenewDuration)
              (getRememberMe s { w with clockReads := k }).2.ext).1 = Except.ok session →
            (renewSession s sessionId renewsAt expiresAt w).2.trace =
              (getRememberMe s { w with clockReads := k }).2.trace ++
                [Event.RenewSession sessionId ((utc now).Add sessionRenewDuration),
                  Event.CookiePut s.sessionCookieName
                    (CookieValue.session
                      { SessionId := session.SessionId, RenewsAt := session.RenewsAt,
                        ExpiresAt := session.ExpiresAt })] ∧
            ((s.cookieStore.Put s.sessionCookieName
                (CookieValue.session
                  { SessionId := session.SessionId, RenewsAt := session.RenewsAt,
                    ExpiresAt := session.ExpiresAt })
                (s.backend.RenewSession sessionId ((utc now).Add sessionRenewDuration)
                  (getRememberMe s { w with clockReads := k }).2.ext).2).1 = none →
              (renewSession s sessionId renewsAt expiresAt w).1 = Except.ok session))) := by
  have hhard : ∃ k : Nat, renewSession s sessionId renewsAt expiresAt w =
      renewSessionHard s sessionId { w with clockReads := k } := by
    by_cases hr : renewsAt.nanos < now
    · have he : ¬ now < expiresAt.nanos := fun h => hnot ⟨hr, h⟩
      exact ⟨w.clockReads + 1 + 1, by
        simp [renewSession, timeNow, Time.Before, Time.After, Time.UTC, hclock, hr, he]⟩
    · exact ⟨w.clockReads + 1, by
        simp [renewSession, timeNow, Time.Before, Time.After, Time.UTC, hclock, hr]⟩
  obtain ⟨k, hk⟩ := hhard
  refine ⟨k, ?_, ?_⟩
  · intro err hg
    rw [hk]
    obtain ⟨evs, hevs, hP⟩ := getRememberMe_trace s { w with clockReads := k }
    have hres : renewSessionHard s sessionId { w with clockReads := k } =
        (Except.error (Error.AuthError "Unable to renew session" (some err)),
          (getRememberMe s { w with clockReads := k }).2) := by
      unfold renewSessionHard
      split
      · rename_i heq
        have h1 := (pair_eq heq).1
        have h2 := (pair_eq heq).2
        subst h2
        rw [hg] at h1
        cases h1
        rfl
      · rename_i heq
        have h1 := (pair_eq heq).1
        rw [hg] at h1
        cases h1
    rw [hres]
    refine ⟨rfl, evs, hevs, ?_⟩
    intro e he
    rcases hP e he with h | h | h
    · subst h; exact ⟨rfl, rfl⟩
    · subst h; exact ⟨rfl, rfl⟩
    · cases e <;> simp_all [Event.isRememberMeBackend, Event.isRenewSession, Event.isCookiePut]
  · intro rememberMe hg
    have hc := getRememberMe_clock s { w with clockReads := k }
    have hnow : ∀ j, (getRememberMe s { w with clockReads := k }).2.clock j = now := by
      intro j; rw [hc]; exact hclock j
    rw [hk]
    unfold renewSessionHard
    split
    · rename_i heq
      have h1 := (pair_eq heq).1
      rw [hg] at h1
      cases h1
    · rename_i heq
      have h2 := (pair_eq heq).2
      subst h2
      refine ⟨?_, ?_⟩
      · intro err hb
        simp only [utc, Time.Add] at hb
        simp only [timeNow, call, Time.UTC, Time.Add, hnow, hb, utc, deleteSessionCookie]
        split <;> simp
      · intro session hb
        simp only [utc, Time.Add] at hb
        simp only [timeNow, call, Time.UTC, Time.Add, hnow, hb, utc]
        split
        all_goals
          rename_i heq2
          have h1 := (pair_eq heq2).1
          have h2 := (pair_eq heq2).2
          subst h2
          simp only [saveSessionCookie_fst, saveSessionCookie_snd] at h1 ⊢
          simp only [Option.map_eq_some', Option.map_eq_none'] at h1
          first
            | (obtain ⟨a, ha, -⟩ := h1
               simp [ha])
            | simp [h1]


/-- Claim C3. `getRememberMe` returns a record only if the remember-me cookie is present,
`cookie.ExpiresAt` is not before now, the backend holds a record for `cookie.Selector`, and
SHA-256(decode(cookie.Token)) equals decode(record.TokenHash) byte for byte. When the
cookie has expired, or the backend's record does not match the token, the call fails and
the remember-me cookie is deleted. -/
theorem getRememberMe_sound {σ : Type} (s : SessionStore σ) (w : World σ) (now : Int)
    (hclock : ∀ k, w.clock k = now) :
    (∀ rememberMe, (getRememberMe s w).1 = Except.ok rememberMe →
      ∃ cookie record,
        (s.cookieStore.GetRememberMeCookie s.rememberMeCookieName w.ext).1 = Except.ok cookie ∧
        ¬ cookie.ExpiresAt.nanos < now ∧
        (s.backend.GetRememberMe cookie.Selector
          (s.cookieStore.GetRememberMeCookie s.rememberMeCookieName w.ext).2).1 =
            Except.ok record ∧
        hash (decodeFromString cookie.Token).1 = (decodeFromString record.TokenHash).1) ∧
    (∀ cookie,
      (s.cookieStore.GetRememberMeCookie s.rememberMeCookieName w.ext).1 = Except.ok cookie →
      cookie.ExpiresAt.nanos < now →
        (∃ err, (getRememberMe s w).1 = Except.error err) ∧
        (getRememberMe s w).2.trace = w.trace ++
          [Event.CookieGet s.rememberMeCookieName,
            Event.CookieDelete s.rememberMeCookieName]) ∧
    (∀ cookie record,
      (s.cookieStore.GetRememberMeCookie s.rememberMeCookieName w.ext).1 = Except.ok cookie →
      ¬ cookie.ExpiresAt.nanos < now →
      (s.backend.GetRememberMe cookie.Selector
        (s.cookieStore.GetRememberMeCookie s.rememberMeCookieName w.ext).2).1 =
          Except.ok record →
      hash (decodeFromString cookie.Token).1 ≠ (decodeFromString record.TokenHash).1 →
        (∃ err, (getRememberMe s w).1 = Except.error err) ∧
        (getRememberMe s w).2.trace = w.trace ++
          [Event.CookieGet s.rememberMeCookieName, Event.GetRememberMe cookie.Selector,
            Event.CookieDelete s.rememberMeCookieName]) := by
  refine ⟨?_, ?_, ?_⟩
  · intro rememberMe hres
    cases hcookie : (s.cookieStore.GetRememberMeCookie s.rememberMeCookieName w.ext).1 with
    | error err =>
      simp [getRememberMe, getRememberMeCookie, call, hcookie] at hres
    | ok cookie =>
      by_cases hexp : cookie.ExpiresAt.nanos < now
      · simp [getRememberMe, getRememberMeCookie, call, hcookie, timeNow, Time.Before,
          Time.UTC, hclock, hexp] at hres
      · cases hrec : (s.backend.GetRememberMe cookie.Selector
            (s.cookieStore.GetRememberMeCookie s.rememberMeCookieName w.ext).2).1 with
        | error err =>
          simp [getRememberMe, getRememberMeCookie, call, hcookie, timeNow, Time.Before,
            Time.UTC, hclock, hexp, hrec] at hres
        | ok record =>
          by_cases heq : encodedHashEquals cookie.Token record.TokenHash = true
          · refine ⟨cookie, record, by first | exact hcookie | rfl, hexp,
              hrec, ?_⟩
            exact (hashEquals_iff _ _).1 heq
          · simp [getRememberMe, getRememberMeCookie, call, hcookie, timeNow, Time.Before,
              Time.UTC, hclock, hexp, hrec, heq] at hres
  · intro cookie hcookie hexp
    simp [getRememberMe, getRememberMeCookie, call, hcookie, timeNow, Time.Before,
      Time.UTC, hclock, hexp, deleteRememberMeCookie]
  · intro cookie record hcookie hexp hrec hne
    have heq : encodedHashEquals cookie.Token record.TokenHash = false := by
      cases h : encodedHashEquals cookie.Token record.TokenHash with
      | false => rfl
      | true => exact absurd ((hashEquals_iff _ _).1 h) hne
    simp [getRememberMe, getRememberMeCookie, call, hcookie, timeNow, Time.Before,
      Time.UTC, hclock, hexp, hrec, heq, deleteRememberMeCookie]

/-- Claim C1. With a readable session cookie and the clock at `now`, `GetSession` hands over
to `renewSession` (on the world as the cookie read left it, some clock readings consumed)
exactly when `cookie.RenewsAt` or `cookie.ExpiresAt` is before `now`. Otherwise it asks the
backend for the session and, when the backend succeeds, returns exactly that session; the
only calls made are the cookie read and `backend.GetSession(cookie.SessionId)`: no renew
call, no cookie written, none deleted. -/
theorem GetSession_dispatch {σ : Type} (s : SessionStore σ) (w : World σ)
    (cookie : SessionCookie) (now : Int)
    (hclock : ∀ k, w.clock k = now)
    (hcookie : (s.cookieStore.GetSessionCookie s.sessionCookieName w.ext).1 =
      Except.ok cookie) :
    ((cookie.RenewsAt.nanos < now ∨ cookie.ExpiresAt.nanos < now) →
      ∃ k : Nat, GetSession s w =
        renewSession s cookie.SessionId cookie.RenewsAt cookie.ExpiresAt
          { (getSessionCookie s w).2 with clockReads := k }) ∧
    (¬ (cookie.RenewsAt.nanos < now ∨ cookie.ExpiresAt.nanos < now) →
      (∃ k : Nat, GetSession s w =
        getSessionFromBackend s cookie { (getSessionCookie s w).2 with clockReads := k }) ∧
      ∀ session,
        (s.backend.GetSession cookie.SessionId
          (s.cookieStore.GetSessionCookie s.sessionCookieName w.ext).2).1 =
            Except.ok session →
          (GetSession s w).1 = Except.ok session ∧
          (GetSession s w).2.trace = w.trace ++
            [Event.CookieGet s.sessionCookieName, Event.GetSession cookie.SessionId]) := by
  refine ⟨?_, ?_⟩
  · intro h
    by_cases hr : cookie.RenewsAt.nanos < now
    · exact ⟨w.clockReads + 1, by
        simp [GetSession, getSessionCookie, call, hcookie, timeNow, Time.Before, Time.UTC,
          hclock, hr]⟩
    · have he : cookie.ExpiresAt.nanos < now := by tauto
      exact ⟨w.clockReads + 1 + 1, by
        simp [GetSession, getSessionCookie, call, hcookie, timeNow, Time.Before, Time.UTC,
          hclock, hr, he]⟩
  · intro h
    have hr : ¬ cookie.RenewsAt.nanos < now := by tauto
    have he : ¬ cookie.ExpiresAt.nanos < now := by tauto
    refine ⟨⟨w.clockReads + 1 + 1, ?_⟩, ?_⟩
    · simp [GetSession, getSessionCookie, call, hcookie, timeNow, Time.Before, Time.UTC,
        hclock, hr, he]
    · intro session hs
      simp [GetSession, getSessionCookie, call, hcookie, timeNow, Time.Before, Time.UTC,
        hclock, hr, he, getSessionFromBackend, hs]

/-- Claim C7. When `isValidEmail(email)` or `isValidPassword(password)` is false, `login`
returns an `AuthError` and leaves the world as it found it: no backend call, no cookie
written, nothing recorded. Likewise `register` with an email that `isValidEmail` rejects
returns an `AuthError` and leaves the world as it found it: no backend call, no cookie,
no mail. -/
theorem invalid_input_touches_nothing {σ : Type} (s : SessionStore σ)
    (email password : String) (rememberMe : Bool) (w : World σ) :
    ((isValidEmail email = false ∨ isValidPassword password = false) →
      ∃ message, login s email password rememberMe w =
        (Except.error (Error.AuthError message none), w)) ∧
    (isValidEmail email = false →
      ∃ message, register s email w = (some (Error.AuthError message none), w)) := by
  refine ⟨?_, ?_⟩
  · intro h
    by_cases he : isValidEmail email = true
    · have hp : isValidPassword password = false := by
        rcases h with h | h
        · rw [he] at h; cases h
        · exact h
      exact ⟨passwordValidationMessage, by simp [login, he, hp, NewAuthError]⟩
    · have he2 : isValidEmail email = false := by simpa using he
      exact ⟨"Please enter a valid email address.", by simp [login, he2, NewAuthError]⟩
  · intro h
    exact ⟨"Invalid email", by simp [register, h, NewAuthError]⟩


theorem GetSession_dispatch_witness :
    ∃ k : Nat, GetSession fixtureStore (fixtureWorld demoFixture 100) =
      renewSession fixtureStore "sid" (utc 50) (utc 200)
        { (getSessionCookie fixtureStore (fixtureWorld demoFixture 100)).2 with
          clockReads := k } :=
  (GetSession_dispatch fixtureStore (fixtureWorld demoFixture 100)
    { SessionId := "sid", RenewsAt := utc 50, ExpiresAt := utc 200 } 100 (fun _ => rfl)
    rfl).1 (Or.inl (by decide))

theorem renewSession_requires_rememberMe_witness :
    ∃ err, (renewSession fixtureStore "sid" (utc 50) (utc 200)
        (fixtureWorld demoFixture 300)).1 =
      Except.error (Error.AuthError "Unable to renew session" (some err)) := by
  obtain ⟨k, h1, -⟩ := renewSession_requires_rememberMe fixtureStore
    (fixtureWorld demoFixture 300) "sid" (utc 50) (utc 200) 300 (fun _ => rfl) (by decide)
  exact ⟨_, (h1 _ rfl).1⟩

theorem getRememberMe_sound_witness :
    (getRememberMe fixtureStore (fixtureWorld demoFixtureRememberMe 100)).2.trace =
      [] ++ [Event.CookieGet "RememberMe", Event.CookieDelete "RememberMe"] :=
  ((getRememberMe_sound fixtureStore (fixtureWorld demoFixtureRememberMe 100) 100
    (fun _ => rfl)).2.1
    { Selector := "sel", Token := "", RenewsAt := utc 5, ExpiresAt := utc 10 } rfl
    (by decide)).2

theorem renewSession_soft_expired_witness :
    (renewSession fixtureStore "sid" (utc 50) (utc 200) (fixtureWorld demoFixture 100)).1 =
      Except.ok { demoSession with RenewsAt := (utc 100).Add sessionRenewDuration } :=
  ((renewSession_soft_expired fixtureStore (fixtureWorld demoFixture 100) "sid" (utc 50)
    (utc 200) 100 (fun _ => rfl) (by decide) (by decide)).2 _ rfl).2 rfl

/-- Claim C5 (the code at the failing input). The session cookie renews at 50 and expires at
200, the clock reads 100, and the backend answers `RenewSession` with
`ErrSessionNotFound`: `renewSession` returns the error wrapped in a `LoggedError`, and the
only call it has made is that `RenewSession`: the session cookie is not deleted. -/
theorem renewSession_soft_SessionNotFound_keeps_cookie :
    (renewSession fixtureStore "sid" (utc 50) (utc 200)
        (fixtureWorld demoFixtureNoSession 100)).1 =
      Except.error (Error.LoggedError "Unable to renew session"
        (some Error.ErrSessionNotFound)) ∧
    (renewSession fixtureStore "sid" (utc 50) (utc 200)
        (fixtureWorld demoFixtureNoSession 100)).2.trace =
      [Event.RenewSession "sid" ((utc 100).Add sessionRenewDuration)] ∧
    Event.CookieDelete "Session" ∉
      (renewSession fixtureStore "sid" (utc 50) (utc 200)
        (fixtureWorld demoFixtureNoSession 100)).2.trace := by
  refine ⟨rfl, rfl, ?_⟩
  decide

theorem invalid_input_touches_nothing_witness :
    ∃ message, login fixtureStore "bad" "pass1234" false (fixtureWorld demoFixture 100) =
      (Except.error (Error.AuthError message none), fixtureWorld demoFixture 100) :=
  (invalid_input_touches_nothing fixtureStore "bad" "pass1234" false
    (fixtureWorld demoFixture 100)).1 (Or.inl (by decide))


/-- When the first branch of `renewSession` returns a session, the backend returned it and
the session cookie was written with its id and times. -/
theorem renewSessionSoft_ok {σ : Type} (s : SessionStore σ) (sessionId : String)
    (w : World σ) (session : UserLoginSession) :
    (renewSessionSoft s sessionId w).1 = Except.ok session →
      (s.backend.RenewSession sessionId
        ((utc (w.clock w.clockReads)).Add sessionRenewDuration) w.ext).1 = Except.ok session ∧
      Event.CookiePut s.sessionCookieName
        (CookieValue.session
          { SessionId := session.SessionId, RenewsAt := session.RenewsAt,
            ExpiresAt := session.ExpiresAt }) ∈ (renewSessionSoft s sessionId w).2.trace := by
  unfold renewSessionSoft
  simp only [timeNow, call, Time.UTC, Time.Add, utc]
  split
  · intro h; cases h
  · rename_i heq
    have h1 := (pair_eq heq).1
    have h2 := (pair_eq heq).2
    subst h2
    dsimp only at h1
    split
    · intro h; cases h
    · rename_i heq2
      have h3 := (pair_eq heq2).2
      subst h3
      intro h
      cases h
      refine ⟨h1, ?_⟩
      simp [saveSessionCookie_snd]

/-- When the second branch of `renewSession` returns a session, the backend returned it
(in the state `getRememberMe` left) and the session cookie was written with its id and
times. -/
theorem renewSessionHard_ok {σ : Type} (s : SessionStore σ) (sessionId : String)
    (w : World σ) (session : UserLoginSession) :
    (renewSessionHard s sessionId w).1 = Except.ok session →
      (s.backend.RenewSession sessionId
        ((utc ((getRememberMe s w).2.clock (getRememberMe s w).2.clockReads)).Add
          sessionRenewDuration) (getRememberMe s w).2.ext).1 = Except.ok session ∧
      Event.CookiePut s.sessionCookieName
        (CookieValue.session
          { SessionId := session.SessionId, RenewsAt := session.RenewsAt,
            ExpiresAt := session.ExpiresAt }) ∈ (renewSessionHard s sessionId w).2.trace := by
  unfold renewSessionHard
  split
  · intro h; cases h
  · rename_i heq0
    have h0 := (pair_eq heq0).2
    subst h0
    simp only [timeNow, call, Time.UTC, Time.Add, utc]
    split
    · intro h; cases h
    · rename_i heq
      have h1 := (pair_eq heq).1
      have h2 := (pair_eq heq).2
      subst h2
      dsimp only at h1
      split
      · intro h; cases h
      · rename_i heq2
        have h3 := (pair_eq heq2).2
        subst h3
        intro h
        cases h
        refine ⟨h1, ?_⟩
        simp [saveSessionCookie_snd]

/-- Whenever `renewSession` returns a session at the clock reading `now`, the backend's
`RenewSession(sessionId, now + 5 min)` returned it, and the session cookie was written
with its id and times. -/
theorem renewSession_ok {σ : Type} (s : SessionStore σ) (w : World σ) (sessionId : String)
    (renewsAt expiresAt : Time) (now : Int) (hclock : ∀ k, w.clock k = now)
    (session : UserLoginSession)
    (h : (renewSession s sessionId renewsAt expiresAt w).1 = Except.ok session) :
    (∃ x, (s.backend.RenewSession sessionId ((utc now).Add sessionRenewDuration) x).1 =
      Except.ok session) ∧
    Event.CookiePut s.sessionCookieName
      (CookieValue.session
        { SessionId := session.SessionId, RenewsAt := session.RenewsAt,
          ExpiresAt := session.ExpiresAt }) ∈
      (renewSession s sessionId renewsAt expiresAt w).2.trace := by
  unfold renewSession at h ⊢
  simp only [timeNow] at h ⊢
  split at h
  · rename_i hb
    simp only [hb, if_true] at h ⊢
    split at h
    · rename_i ha
      simp only [ha, if_true] at h ⊢
      have := renewSessionSoft_ok s sessionId _ session h
      simp only [hclock] at this
      exact ⟨⟨_, this.1⟩, this.2⟩
    · rename_i ha
      simp only [ha] at h ⊢
      have := renewSessionHard_ok s sessionId _ session h
      simp only [getRememberMe_clock, hclock] at this
      exact ⟨⟨_, this.1⟩, this.2⟩
  · rename_i hb
    simp only [hb] at h ⊢
    have := renewSessionHard_ok s sessionId _ session h
    simp only [getRememberMe_clock, hclock] at this
    exact ⟨⟨_, this.1⟩, this.2⟩


/-- Whenever `renewSession` returns a session at the clock reading `now`, the backend's
`RenewSession(sessionId, now + 5 min)` returned it, and the session cookie was written
with its id and times. The backend ran on the state of the collaborators at the call: in
the soft-expired case (`renewsAt < now < expiresAt`) the state `renewSession` started from,
and otherwise the state `getRememberMe` left. -/
theorem renewSession_ok_state {σ : Type} (s : SessionStore σ) (w : World σ)
    (sessionId : String) (renewsAt expiresAt : Time) (now : Int)
    (hclock : ∀ k, w.clock k = now) (session : UserLoginSession)
    (h : (renewSession s sessionId renewsAt expiresAt w).1 = Except.ok session) :
    (s.backend.RenewSession sessionId ((utc now).Add sessionRenewDuration)
        (if renewsAt.nanos < now ∧ expiresAt.nanos > now then w.ext
         else (getRememberMe s
            { w with
              clockReads := w.clockReads + (if renewsAt.nanos < now then 2 else 1) }).2.ext)).1 =
      Except.ok session ∧
    Event.CookiePut s.sessionCookieName
      (CookieValue.session
        { SessionId := session.SessionId, RenewsAt := session.RenewsAt,
          ExpiresAt := session.ExpiresAt }) ∈
      (renewSession s sessionId renewsAt expiresAt w).2.trace := by
  unfold renewSession at h ⊢
  simp only [timeNow, Time.Before, Time.After, Time.UTC, hclock] at h ⊢
  by_cases hb : renewsAt.nanos < now
  · by_cases ha : expiresAt.nanos > now
    · simp only [hb, ha, decide_True, if_true, and_self] at h ⊢
      have := renewSessionSoft_ok s sessionId _ session h
      simp only [hclock] at this
      exact this
    · simp only [hb, ha, decide_True, decide_False, if_true, if_false, and_false,
        Bool.false_eq_true] at h ⊢
      have := renewSessionHard_ok s sessionId _ session h
      simp only [getRememberMe_clock, hclock] at this
      exact this
  · simp only [hb, decide_False, if_false, false_and, Bool.false_eq_true] at h ⊢
    have := renewSessionHard_ok s sessionId _ session h
    simp only [getRememberMe_clock, hclock] at this
    exact this

/-- The method `saveSession` saves only a session that expires after the clock reading. -/
theorem saveSession_none {δ : Type} (r : backendRedisSession δ) (session : loginSession)
    (w : RedisWorld δ) :
    (r.saveSession session w).1 = none → r.clock w.clockReads < session.ExpireTimeUTC.nanos := by
  unfold backendRedisSession.saveSession
  simp only [redisNow]
  split
  · intro h; cases h
  · rename_i hguard
    intro _
    omega

/-- What the Redis `RenewSession` returns when it succeeds with the backend's clock at
`now`: the stored session with the renew time it was given, and with its expiry moved to
`now + 60 min` when the stored expiry was before `now`; the expiry returned is after
`now`. -/
theorem redisRenewSession_ok {δ : Type} (r : backendRedisSession δ) (sessionId : String)
    (t : Time) (x : RedisWorld δ) (now : Int) (hr : ∀ k, r.clock k = now)
    (session : UserLoginSession) :
    (redisRenewSession r sessionId t x).1 = Except.ok session →
      ∃ stored, (r.db.QueryStructRow (r.getSessionKey sessionId) x.data).1 = Except.ok stored ∧
        session.RenewsAt = t ∧
        session.ExpiresAt =
          (if stored.ExpireTimeUTC.nanos < now then (utc now).Add sessionExpireDuration
           else stored.ExpireTimeUTC) ∧
        now < session.ExpiresAt.nanos := by
  have key : ∀ sess, (r.RenewSession sessionId t x).1 = Except.ok sess →
      ∃ stored, (r.db.QueryStructRow (r.getSessionKey sessionId) x.data).1 = Except.ok stored ∧
        sess.RenewTimeUTC = t ∧
        sess.ExpireTimeUTC =
          (if stored.ExpireTimeUTC.nanos < now then (utc now).Add sessionExpireDuration
           else stored.ExpireTimeUTC) ∧
        now < sess.ExpireTimeUTC.nanos := by
    intro sess
    unfold backendRedisSession.RenewSession backendRedisSession.GetSession
    cases hq : (r.db.QueryStructRow (r.getSessionKey sessionId) x.data).1 with
    | error err => intro h; cases h
    | ok stored =>
      simp only [redisNow, hr, Time.Before, Time.UTC, Time.Add, utc]
      by_cases hexp : stored.ExpireTimeUTC.nanos < now
      · simp only [hexp, decide_True, if_true]
        split
        · intro h; cases h
        · rename_i heq
          have h1 := saveSession_none r _ _ (pair_eq heq).1
          simp only [hr] at h1
          intro h
          simp only [Except.ok.injEq] at h
          subst h
          exact ⟨stored, rfl, rfl, by simp [hexp], h1⟩
      · simp only [hexp, decide_False, if_false, Bool.false_eq_true]
        split
        · intro h; cases h
        · rename_i heq
          have h1 := saveSession_none r _ _ (pair_eq heq).1
          simp only [hr] at h1
          intro h
          simp only [Except.ok.injEq] at h
          subst h
          exact ⟨stored, rfl, rfl, by simp [hexp], h1⟩
  unfold redisRenewSession
  split
  · intro h; cases h
  · rename_i heq
    have h1 := (pair_eq heq).1
    obtain ⟨stored, hq, h2, h3, h4⟩ := key _ h1
    intro h
    simp only [Except.ok.injEq] at h
    subst h
    exact ⟨stored, hq, h2, h3, h4⟩


/-- Claim C6 (as stated, refuted). The stored session renews at minute 9 and expires at
minute 12, so `renewsAt <= expiresAt` holds before the call; the clock reads minute 10.
`renewSession` over the Redis `RenewSession` returns, and writes to the session cookie, a
session that renews at minute 15 and still expires at minute 12. -/
theorem renewSession_redis_renewsAt_after_expiresAt :
    (storedSession (9 * Minute) (12 * Minute)).RenewTimeUTC.nanos ≤
      (storedSession (9 * Minute) (12 * Minute)).ExpireTimeUTC.nanos ∧
    ∃ session,
      (renewSession (redisFixtureStore (10 * Minute)) "sid" (utc (9 * Minute))
        (utc (12 * Minute))
        (redisFixtureWorld (storedSession (9 * Minute) (12 * Minute)) (10 * Minute))).1 =
          Except.ok session ∧
      Event.CookiePut "Session"
        (CookieValue.session
          { SessionId := session.SessionId, RenewsAt := session.RenewsAt,
            ExpiresAt := session.ExpiresAt }) ∈
        (renewSession (redisFixtureStore (10 * Minute)) "sid" (utc (9 * Minute))
          (utc (12 * Minute))
          (redisFixtureWorld (storedSession (9 * Minute) (12 * Minute)) (10 * Minute))).2.trace ∧
      session.RenewsAt.nanos = 15 * Minute ∧ session.ExpiresAt.nanos = 12 * Minute ∧
      ¬ session.RenewsAt.nanos ≤ session.ExpiresAt.nanos := by
  refine ⟨by decide, ⟨_, rfl, by decide, by decide, by decide, by decide⟩⟩

/-- Claim C6 (amended). With the Redis `RenewSession` as the backend's `RenewSession` and
both clocks at `now`, every session `renewSession` returns has been written to the session
cookie and renews at `now + 5 min`. The database `RenewSession` ran on is the one
`renewSession` started from in the soft-expired case (`renewsAt < now < expiresAt` for the
cookie times) and the one `getRememberMe` left otherwise; it holds a session `stored` under
the key of `sessionId`, and the session returned expires when `stored` did, or at
`now + 60 min` if that was before `now`. Hence `renewsAt <= expiresAt` holds for the session
returned exactly when the expiry of `stored` is before `now` or not before `now + 5 min`. -/
theorem renewSession_redis_times {δ : Type} (r : backendRedisSession δ)
    (s : SessionStore (RedisWorld δ)) (w : World (RedisWorld δ)) (sessionId : String)
    (renewsAt expiresAt : Time) (now : Int)
    (hclock : ∀ k, w.clock k = now) (hrclock : ∀ k, r.clock k = now)
    (hbackend : s.backend.RenewSession = redisRenewSession r)
    (session : UserLoginSession)
    (hres : (renewSession s sessionId renewsAt expiresAt w).1 = Except.ok session) :
    session.RenewsAt = (utc now).Add sessionRenewDuration ∧
    Event.CookiePut s.sessionCookieName
      (CookieValue.session
        { SessionId := session.SessionId, RenewsAt := session.RenewsAt,
          ExpiresAt := session.ExpiresAt }) ∈
      (renewSession s sessionId renewsAt expiresAt w).2.trace ∧
    ∃ stored,
      (r.db.QueryStructRow (r.getSessionKey sessionId)
          (if renewsAt.nanos < now ∧ expiresAt.nanos > now then w.ext
           else (getRememberMe s
              { w with
                clockReads :=
                  w.clockReads + (if renewsAt.nanos < now then 2 else 1) }).2.ext).data).1 =
        Except.ok stored ∧
      session.ExpiresAt =
        (if stored.ExpireTimeUTC.nanos < now then (utc now).Add sessionExpireDuration
         else stored.ExpireTimeUTC) ∧
      (session.RenewsAt.nanos ≤ session.ExpiresAt.nanos ↔
        (stored.ExpireTimeUTC.nanos < now ∨
          now + sessionRenewDuration ≤ stored.ExpireTimeUTC.nanos)) := by
  obtain ⟨hx, hput⟩ :=
    renewSession_ok_state s w sessionId renewsAt expiresAt now hclock session hres
  rw [hbackend] at hx
  obtain ⟨stored, hq, h1, h2, -⟩ := redisRenewSession_ok r sessionId _ _ now hrclock session hx
  refine ⟨h1, hput, stored, hq, h2, ?_⟩
  rw [h1, h2]
  by_cases hlt : stored.ExpireTimeUTC.nanos < now
  · simp only [hlt, if_true, true_or, iff_true, utc, Time.Add, sessionRenewDuration,
      sessionExpireDuration, Hour, Minute, Second, Nanosecond]
    omega
  · simp only [hlt, if_false, false_or, utc, Time.Add]

theorem renewSession_redis_times_witness :
    ∃ session,
      (renewSession (redisFixtureStore (10 * Minute)) "sid" (utc (9 * Minute))
        (utc (30 * Minute))
        (redisFixtureWorld (storedSession (9 * Minute) (30 * Minute)) (10 * Minute))).1 =
          Except.ok session ∧
      session.RenewsAt = (utc (10 * Minute)).Add sessionRenewDuration ∧
      ∃ stored,
        (memoryDB.QueryStructRow "auth/session/sid"
            (redisFixtureWorld (storedSession (9 * Minute) (30 * Minute))
              (10 * Minute)).ext.data).1 = Except.ok stored ∧
        session.ExpiresAt = stored.ExpireTimeUTC :=
  ⟨_, rfl,
    (renewSession_redis_times (demoRedis (10 * Minute)) (redisFixtureStore (10 * Minute))
      (redisFixtureWorld (storedSession (9 * Minute) (30 * Minute)) (10 * Minute)) "sid"
      (utc (9 * Minute)) (utc (30 * Minute)) (10 * Minute) (fun _ => rfl) (fun _ => rfl) rfl
      _ rfl).1, _, rfl, rfl⟩


theorem generateRandomBytes_snd {σ : Type} (n : Nat) (w : World σ) :
    (generateRandomBytes n w).2 = { w with randReads := w.randReads + 1 } := by
  unfold generateRandomBytes
  split <;> rfl

theorem generateRandomString_snd {σ : Type} (w : World σ) :
    (generateRandomString w).2 = { w with randReads := w.randReads + 1 } := by
  unfold generateRandomString
  split
  all_goals
    rename_i heq
    have h2 := (pair_eq heq).2
    rw [generateRandomBytes_snd] at h2
    subst h2
    rfl

theorem generateStringAndHash_snd {σ : Type} (w : World σ) :
    (generateStringAndHash w).2 = { w with randReads := w.randReads + 1 } := by
  unfold generateStringAndHash
  split
  all_goals
    rename_i heq
    have h2 := (pair_eq heq).2
    rw [generateRandomBytes_snd] at h2
    subst h2
    rfl

/-- A successful `generateStringAndHash` returns the encoding of the bytes drawn and the
encoding of their hash. -/
theorem generateStringAndHash_ok {σ : Type} (w : World σ) (token tokenHash : String) :
    (generateStringAndHash w).1 = Except.ok (token, tokenHash) →
      ∃ f, w.rand w.randReads = Except.ok f ∧
        token = encodeToString ((List.range 32).map f) ∧
        tokenHash = encodeToString (hash ((List.range 32).map f)) := by
  unfold generateStringAndHash generateRandomBytes
  cases hr : w.rand w.randReads with
  | error err => intro h; cases h
  | ok f =>
    intro h
    simp only [Except.ok.injEq, Prod.mk.injEq] at h
    exact ⟨f, rfl, h.1.symm, h.2.symm⟩

/-- A successful `generateSelectorTokenAndHash` returns a token hash that is the encoding
of the hash of the decoded token, and the pair passes `encodedHashEquals`. -/
theorem generateSelectorTokenAndHash_ok {σ : Type} (w : World σ)
    (selector token tokenHash : String) :
    (generateSelectorTokenAndHash w).1 = Except.ok (selector, token, tokenHash) →
      tokenHash = encodeToString (hash (decodeFromString token).1) ∧
      encodedHashEquals token tokenHash = true := by
  unfold generateSelectorTokenAndHash
  split
  · intro h; cases h
  · split
    · intro h; cases h
    · rename_i heq2
      have h1 := (pair_eq heq2).1
      intro h
      simp only [Except.ok.injEq, Prod.mk.injEq] at h
      obtain ⟨-, ht, hth⟩ := h
      subst ht hth
      obtain ⟨f, -, ht, hth⟩ := generateStringAndHash_ok _ _ _ h1
      subst ht hth
      refine ⟨by rw [decodeFromString_encodeToString], ?_⟩
      simp only [encodedHashEquals, decodeFromString_encodeToString]
      exact (hashEquals_iff _ _).2 rfl


/-- Claim C10. Whenever `generateSelectorTokenAndHash` succeeds, the token hash it returns
is encode(SHA-256(decode(token))), and the pair passes `encodedHashEquals`. Whenever
`createSession` with `rememberMe = true` succeeds, the triple it generated is such that
`backend.NewLoginSession` was called with the selector and the token hash, the remember-me
cookie was written with the selector and the raw token, and
`encodedHashEquals(token, tokenHash)` holds for the pair. -/
theorem rememberMe_token_matches_hash {σ : Type} (s : SessionStore σ) (loginId : Int)
    (w : World σ) :
    (∀ selector token tokenHash,
      (generateSelectorTokenAndHash w).1 = Except.ok (selector, token, tokenHash) →
        tokenHash = encodeToString (hash (decodeFromString token).1) ∧
        encodedHashEquals token tokenHash = true) ∧
    (∀ session, (createSession s loginId true w).1 = Except.ok session →
      ∃ selector token tokenHash,
        (generateSelectorTokenAndHash w).1 = Except.ok (selector, token, tokenHash) ∧
        (∃ sessionId t1 t2 t3 t4,
          Event.NewLoginSession loginId sessionId t1 t2 true selector tokenHash t3 t4 ∈
            (createSession s loginId true w).2.trace) ∧
        (∃ r1 r2,
          Event.CookiePut s.rememberMeCookieName
            (CookieValue.rememberMe
              { Selector := selector, Token := token, RenewsAt := r1, ExpiresAt := r2 }) ∈
            (createSession s loginId true w).2.trace) ∧
        encodedHashEquals token tokenHash = true) := by
  refine ⟨fun selector token tokenHash h => generateSelectorTokenAndHash_ok w _ _ _ h, ?_⟩
  intro session
  unfold createSession
  simp only [if_true]
  split
  · intro h; cases h
  · rename_i selector token tokenHash w1 hgen
    have hg1 := (pair_eq hgen).1
    have hg2 := (pair_eq hgen).2
    subst hg2
    split
    · intro h; cases h
    · rename_i sessionId w2 hsid
      have hs2 := (pair_eq hsid).2
      subst hs2
      simp only [timeNow, call, getSessionCookie, saveRememberMeCookie]
      split
      · intro h; cases h
      · rename_i sess remember w3 hnew
        simp only [Prod.mk.injEq] at hnew
        obtain ⟨-, rfl⟩ := hnew
        split
        · intro h; cases h
        · rename_i w4 hsaved
          simp only [Prod.mk.injEq] at hsaved
          obtain ⟨-, rfl⟩ := hsaved
          split
          · intro h; cases h
          · rename_i w5 hsave
            have hw5 := (pair_eq hsave).2
            subst hw5
            intro _
            refine ⟨selector, token, tokenHash, hg1, ?_, ?_,
              (generateSelectorTokenAndHash_ok w _ _ _ hg1).2⟩
            · simp only [saveSessionCookie_snd]
              exact ⟨_, _, _, _, _, List.mem_append_left _ (List.mem_append_left _
                (List.mem_append_left _ (List.mem_append_right _ (List.mem_singleton.2 rfl))))⟩
            · simp only [saveSessionCookie_snd]
              exact ⟨_, _, List.mem_append_left _
                (List.mem_append_right _ (List.mem_singleton.2 rfl))⟩


theorem rememberMe_token_matches_hash_witness :
    ∃ selector token tokenHash,
      (generateSelectorTokenAndHash (fixtureWorld demoFixture 100)).1 =
        Except.ok (selector, token, tokenHash) ∧
      encodedHashEquals token tokenHash = true :=
  ⟨_, _, _, rfl,
    ((rememberMe_token_matches_hash fixtureStore 1 (fixtureWorld demoFixture 100)).1
      _ _ _ rfl).2⟩

/-- The encoding of a byte sequence whose length is 2 modulo 3 ends with one `=`. -/
theorem encodeChars_ends_with_pad : ∀ (n : Nat) (b : List Byte), b.length = n → n % 3 = 2 →
    ∃ cs, encodeChars b = cs ++ [padChar] := by
  intro n
  induction n using Nat.strong_induction_on with
  | _ n ih =>
    intro b hb hn
    match b, hb with
    | [], hb => simp at hb; omega
    | [a], hb => simp at hb; omega
    | [a, b], _ =>
        exact ⟨[encChar (a.val / 4), encChar (a.val % 4 * 16 + b.val / 16),
          encChar (b.val % 16 * 4)], by simp [encodeChars]⟩
    | a :: b :: c :: rest, hb =>
        simp only [List.length_cons] at hb
        obtain ⟨cs, hcs⟩ := ih rest.length (by omega) rest rfl (by omega)
        exact ⟨encChar (a.val / 4) :: encChar (a.val % 4 * 16 + b.val / 16) ::
          encChar (b.val % 16 * 4 + c.val / 64) :: encChar (c.val % 64) :: cs,
          by simp [encodeChars, hcs]⟩

/-- Dropping the last byte of the encoding of 32 bytes and appending `=` gives the
encoding back. -/
theorem dropLastByte_append_pad (b : List Byte) (hb : b.length = 32) :
    dropLastByte (encodeToString b) ++ "=" = encodeToString b := by
  obtain ⟨cs, hcs⟩ := encodeChars_ends_with_pad 32 b hb (by decide)
  simp only [dropLastByte, encodeToString, hcs, List.dropLast_concat]
  rfl

theorem decode_mailed_code (b : List Byte) (hb : b.length = 32) :
    decodeFromString (dropLastByte (encodeToString b) ++ "=") = (b, false) := by
  rw [dropLastByte_append_pad b hb, decodeFromString_encodeToString]


theorem saveSessionCookie_eq {σ : Type} (s : SessionStore σ) (sessionId : String)
    (renewsAt expiresAt : Time) (w : World σ) :
    saveSessionCookie s sessionId renewsAt expiresAt w =
      (((s.cookieStore.Put s.sessionCookieName
          (CookieValue.session
            { SessionId := sessionId, RenewsAt := renewsAt, ExpiresAt := expiresAt })
          w.ext).1).map (fun err => NewAuthError "Error saving session cookie" (some err)),
        { w with
          ext := (s.cookieStore.Put s.sessionCookieName
            (CookieValue.session
              { SessionId := sessionId, RenewsAt := renewsAt, ExpiresAt := expiresAt })
            w.ext).2
          trace := w.trace ++ [Event.CookiePut s.sessionCookieName
            (CookieValue.session
              { SessionId := sessionId, RenewsAt := renewsAt, ExpiresAt := expiresAt })] }) :=
  Prod.ext (saveSessionCookie_fst s sessionId renewsAt expiresAt w)
    (saveSessionCookie_snd s sessionId renewsAt expiresAt w)

/-- Claim C9. Let `b` be the 32 bytes `generateStringAndHash` draws in `register`. When
`register` goes through (valid email, random source available, `AddUser` and the cookie
`Put` succeed), it hands `backend.AddUser` the hash encode(SHA-256(b)) and mails the code
encode(b) without its last character. Appending `=` to that code and decoding gives back
exactly `b`, and `verifyEmail` called with that code (with a readable session cookie, or
else a fresh random session id) hands `backend.VerifyEmail` the same encode(SHA-256(b)). -/
theorem verification_code_round_trip {σ : Type} (s : SessionStore σ) (w : World σ)
    (email : String) (f g : Nat → Byte) (session : UserLoginSession)
    (hemail : isValidEmail email = true)
    (hf : w.rand w.randReads = Except.ok f)
    (hg : w.rand (w.randReads + 1) = Except.ok g)
    (hadd : (s.backend.AddUser email (encodeToString (hash ((List.range 32).map f)))
        (encodeToString ((List.range 32).map g))
        ((utc (w.clock w.clockReads)).Add sessionRenewDuration)
        ((utc (w.clock (w.clockReads + 1))).Add sessionExpireDuration) w.ext).1 =
      Except.ok session)
    (hput : (s.cookieStore.Put s.sessionCookieName
        (CookieValue.session
          { SessionId := session.SessionId, RenewsAt := session.RenewsAt,
            ExpiresAt := session.ExpiresAt })
        (s.backend.AddUser email (encodeToString (hash ((List.range 32).map f)))
          (encodeToString ((List.range 32).map g))
          ((utc (w.clock w.clockReads)).Add sessionRenewDuration)
          ((utc (w.clock (w.clockReads + 1))).Add sessionExpireDuration) w.ext).2).1 = none) :
    (register s email w).2.trace = w.trace ++
      [Event.AddUser email (encodeToString (hash ((List.range 32).map f)))
          (encodeToString ((List.range 32).map g))
          ((utc (w.clock w.clockReads)).Add sessionRenewDuration)
          ((utc (w.clock (w.clockReads + 1))).Add sessionExpireDuration),
        Event.CookiePut s.sessionCookieName
          (CookieValue.session
            { SessionId := session.SessionId, RenewsAt := session.RenewsAt,
              ExpiresAt := session.ExpiresAt }),
        Event.SendVerify email
          { VerificationCode := dropLastByte (encodeToString ((List.range 32).map f)),
            Email := email, RefererBaseUrl := getBaseUrl s.referer }] ∧
    decodeFromString (dropLastByte (encodeToString ((List.range 32).map f)) ++ "=") =
      ((List.range 32).map f, false) ∧
    (∀ (s' : SessionStore σ) (w' : World σ) (cookie : SessionCookie),
      (s'.cookieStore.GetSessionCookie s'.sessionCookieName w'.ext).1 = Except.ok cookie →
        ∃ t1 t2 rest,
          (verifyEmail s' (dropLastByte (encodeToString ((List.range 32).map f))) w').2.trace =
            w'.trace ++ Event.CookieGet s'.sessionCookieName ::
              Event.VerifyEmail (encodeToString (hash ((List.range 32).map f)))
                cookie.SessionId t1 t2 :: rest) ∧
    (∀ (s' : SessionStore σ) (w' : World σ) (err : Error) (g' : Nat → Byte),
      (s'.cookieStore.GetSessionCookie s'.sessionCookieName w'.ext).1 = Except.error err →
      w'.rand w'.randReads = Except.ok g' →
        ∃ t1 t2 rest,
          (verifyEmail s' (dropLastByte (encodeToString ((List.range 32).map f))) w').2.trace =
            w'.trace ++ Event.CookieGet s'.sessionCookieName ::
              Event.VerifyEmail (encodeToString (hash ((List.range 32).map f)))
                (encodeToString ((List.range 32).map g')) t1 t2 :: rest) := by
  have hdec := decode_mailed_code ((List.range 32).map f) (by simp)
  refine ⟨?_, hdec, ?_, ?_⟩
  · simp only [utc, Time.Add] at hadd hput
    simp [register, hemail, addUser, generateStringAndHash, generateRandomString,
      generateRandomBytes, hf, hg, timeNow, call, Time.UTC, Time.Add, utc, hadd,
      saveSessionCookie, hput]
    split
    all_goals
      rename_i heq
      simp only [Prod.mk.injEq] at heq
      obtain ⟨-, rfl⟩ := heq
      simp
  · intro s' w' cookie hcookie
    refine ⟨(utc (w'.clock w'.clockReads)).Add sessionRenewDuration,
      ⟨w'.clock (w'.clockReads + 1) + sessionExpireDuration, Location.Local⟩, ?_⟩
    unfold verifyEmail
    simp only [getSessionCookie, call, hcookie, hdec, timeNow, Time.UTC, Time.Add, utc,
      saveSessionCookie_eq]
    repeat' split
    all_goals
      simp only [Prod.mk.injEq] at *
      casesm* _ ∧ _
      subst_vars
      simp only [List.append_assoc, List.cons_append, List.nil_append]
      exact ⟨_, rfl⟩
  · intro s' w' err g' hcookie hg'
    refine ⟨(utc (w'.clock w'.clockReads)).Add sessionRenewDuration,
      ⟨w'.clock (w'.clockReads + 1) + sessionExpireDuration, Location.Local⟩, ?_⟩
    unfold verifyEmail
    simp only [getSessionCookie, call, hcookie, hdec, timeNow, Time.UTC, Time.Add, utc,
      generateRandomString, generateRandomBytes, hg', saveSessionCookie_eq]
    repeat' split
    all_goals
      simp only [Prod.mk.injEq] at *
      casesm* _ ∧ _
      subst_vars
      simp only [List.append_assoc, List.cons_append, List.nil_append]
      exact ⟨_, rfl⟩


theorem verification_code_round_trip_witness :
    decodeFromString
        (dropLastByte (encodeToString ((List.range 32).map (fun i => mkByte (0 + i)))) ++ "=") =
      ((List.range 32).map (fun i => mkByte (0 + i)), false) :=
  (verification_code_round_trip fixtureStore (fixtureWorld demoFixture 100) "a@b.co"
    (fun i => mkByte (0 + i)) (fun i => mkByte (1 + i)) _ (by decide) rfl rfl rfl rfl).2.1

/-- Claim C8 (as stated, refuted). With a half-auth session in place, `createProfile` with
the password `abc` succeeds and stores providerKey = encode(SHA-256("abc")); the login
with that same password that follows is turned away by the password validation with an
`AuthError`, before any backend call: it never reaches `createSession`. -/
theorem createProfile_password_rejected_by_login :
    (createProfile fixtureStore "A B" "Org" "abc" "pic.png" (fixtureWorld demoFixture 10)).1 =
      none ∧
    (∃ l, (createProfile fixtureStore "A B" "Org" "abc" "pic.png"
          (fixtureWorld demoFixture 10)).2.ext.login = Except.ok l ∧
        l.ProviderKey = encodeToString (hash (stringBytes "abc"))) ∧
    login fixtureStore "a@b.co" "abc" false
        (createProfile fixtureStore "A B" "Org" "abc" "pic.png" (fixtureWorld demoFixture 10)).2 =
      (Except.error (Error.AuthError passwordValidationMessage none),
        (createProfile fixtureStore "A B" "Org" "abc" "pic.png"
          (fixtureWorld demoFixture 10)).2) := by
  refine ⟨rfl, ⟨_, rfl, rfl⟩, ?_⟩
  have h := (show isValidEmail "a@b.co" = true ∧ isValidPassword "abc" = false by decide)
  simp [login, h.1, h.2, NewAuthError]

/-- Claim C8 (amended). `createProfile` hands the backend
providerKey = encode(SHA-256(password)). For every password of 7 to 20 bytes
(`isValidPassword`), a login with a valid email against a login record that carries that
providerKey passes the password validation and the stored-hash comparison and goes on to
`createSession`. -/
theorem login_after_createProfile {σ : Type} (s : SessionStore σ) (w0 w : World σ)
    (email password fullName organization picturePath : String) (rememberMe : Bool)
    (userLogin : UserLogin)
    (hemail : isValidEmail email = true) (hpassword : isValidPassword password = true)
    (hlogin : (s.backend.GetUserLogin email s.LoginProviderDefaultName w.ext).1 =
      Except.ok userLogin)
    (hkey : userLogin.ProviderKey = encodeToString (hash (stringBytes password))) :
    (∀ session, (GetSession s w0).1 = Except.ok session →
      Event.CreateProfileAndInvalidateSessions session.LoginId
          (encodeToString (hash (stringBytes password))) fullName organization picturePath
          session.SessionId session.ExpiresAt session.RenewsAt ∈
        (createProfile s fullName organization password picturePath w0).2.trace) ∧
    hashEquals (stringBytes password) (decodeFromString userLogin.ProviderKey).1 = true ∧
    login s email password rememberMe w =
      createSession s userLogin.LoginId rememberMe
        (call (Event.GetUserLogin email s.LoginProviderDefaultName)
          (s.backend.GetUserLogin email s.LoginProviderDefaultName) w).2 := by
  have hh : hashEquals (stringBytes password) (decodeFromString userLogin.ProviderKey).1 =
      true := by
    rw [hkey, decodeFromString_encodeToString]
    exact (hashEquals_iff _ _).2 rfl
  refine ⟨?_, hh, ?_⟩
  · intro session
    unfold createProfile
    simp only [call, saveSessionCookie_eq]
    split
    · intro h
      rename_i heq
      rw [(pair_eq heq).1] at h
      cases h
    · rename_i sess w1 heq
      have h1 := (pair_eq heq).1
      have h2 := (pair_eq heq).2
      subst h2
      intro h
      rw [h1] at h
      simp only [Except.ok.injEq] at h
      subst h
      repeat' split
      all_goals
        simp only [Prod.mk.injEq] at *
        casesm* _ ∧ _
        subst_vars
        simp
  · simp [login, hemail, hpassword, call, hlogin, hh]

theorem login_after_createProfile_witness :
    hashEquals (stringBytes "pass1234")
      (decodeFromString (encodeToString (hash (stringBytes "pass1234")))).1 = true :=
  (login_after_createProfile fixtureStore (fixtureWorld demoFixture 10)
    (fixtureWorld
      { demoFixture with
        login := Except.ok
          { LoginId := 1, UserId := 1, LoginProviderId := 1,
            ProviderKey := encodeToString (hash (stringBytes "pass1234")) } } 10)
    "a@b.co" "pass1234" "A B" "Org" "pic.png" false
    { LoginId := 1, UserId := 1, LoginProviderId := 1,
      ProviderKey := encodeToString (hash (stringBytes "pass1234")) }
    (by decide) (by decide) rfl rfl).2.1

theorem beBytes_length : ∀ (k n : Nat), (beBytes k n).length = k
  | 0, _ => rfl
  | k + 1, n => by simp [beBytes, beBytes_length k]

theorem length_eight {α : Type} (l : List α) (h : l.length = 8) :
    ∃ a b c d e f g i, l = [a, b, c, d, e, f, g, i] := by
  match l, h with
  | [a, b, c, d, e, f, g, i], _ => exact ⟨a, b, c, d, e, f, g, i, rfl⟩

theorem sha256Round_length (v : List Nat) (kw : Nat × Nat) (h : v.length = 8) :
    (sha256Round v kw).length = 8 := by
  obtain ⟨a, b, c, d, e, f, g, i, rfl⟩ := length_eight v h
  rfl

theorem sha256Round_foldl_length (kws : List (Nat × Nat)) :
    ∀ v : List Nat, v.length = 8 → (kws.foldl sha256Round v).length = 8 := by
  induction kws with
  | nil => intro v h; exact h
  | cons kw rest ih =>
      intro v h
      exact ih _ (sha256Round_length v kw h)

theorem sha256Block_length (st : List Nat) (block : List Byte) (h : st.length = 8) :
    (sha256Block st block).length = 8 := by
  simp [sha256Block, sha256Round_foldl_length _ st h, h]

theorem sha256Blocks_length : ∀ (k : Nat) (st : List Nat) (bs : List Byte), st.length = 8 →
    (sha256Blocks k st bs).length = 8
  | 0, _, _, h => h
  | k + 1, st, _, h => sha256Blocks_length k _ _ (sha256Block_length st _ h)

/-- The hash is 32 bytes long. -/
theorem hash_length (bytes : List Byte) : (hash bytes).length = 32 := by
  unfold hash Sum256
  obtain ⟨a, b, c, d, e, f, g, i, h⟩ :=
    length_eight _ (sha256Blocks_length ((sha256Pad bytes).length / 64) sha256Init
      (sha256Pad bytes) rfl)
  simp only [h]
  simp [List.flatMap, beBytes_length]

/-- Claim C20. For every password and every login whose `ProviderKey` decodes (decode
errors ignored) to a byte sequence of length other than 32, `hashEquals` returns false,
and `login` returns an error having called at most `backend.GetUserLogin`: it does not
reach `createSession` and writes no cookie. The empty `ProviderKey` decodes to no bytes
at all, so it is such a key. -/
theorem login_rejects_key_of_wrong_length {σ : Type} (s : SessionStore σ) (w : World σ)
    (email password : String) (rememberMe : Bool) (userLogin : UserLogin)
    (hlogin : (s.backend.GetUserLogin email s.LoginProviderDefaultName w.ext).1 =
      Except.ok userLogin)
    (hlen : (decodeFromString userLogin.ProviderKey).1.length ≠ 32) :
    hashEquals (stringBytes password) (decodeFromString userLogin.ProviderKey).1 = false ∧
    (∃ err, (login s email password rememberMe w).1 = Except.error err) ∧
    ((login s email password rememberMe w).2.trace = w.trace ∨
      (login s email password rememberMe w).2.trace =
        w.trace ++ [Event.GetUserLogin email s.LoginProviderDefaultName]) ∧
    (decodeFromString "").1.length ≠ 32 := by
  have hh : hashEquals (stringBytes password) (decodeFromString userLogin.ProviderKey).1 =
      false := by
    have hne : (hash (stringBytes password)).length ≠
        (decodeFromString userLogin.ProviderKey).1.length := by
      rw [hash_length]; exact fun h => hlen h.symm
    simp [hashEquals, ConstantTimeCompare, hne]
  refine ⟨hh, ?_, ?_, by decide⟩
  · by_cases he : isValidEmail email = true
    · by_cases hp : isValidPassword password = true
      · exact ⟨_, by simp [login, he, hp, call, hlogin, hh]; rfl⟩
      · exact ⟨_, by simp [login, he, hp]; rfl⟩
    · exact ⟨_, by simp [login, he]; rfl⟩
  · by_cases he : isValidEmail email = true
    · by_cases hp : isValidPassword password = true
      · right
        simp [login, he, hp, call, hlogin, hh]
      · left
        simp [login, he, hp]
    · left
      simp [login, he]

/-- Claim C16 (the code at the failing inputs). A password of four two-byte characters is
accepted although it has fewer than 7 characters, and a password of eleven two-byte
characters is rejected although it has between 7 and 20 characters: `len` counts bytes. -/
theorem isValidPassword_counts_bytes :
    isValidPassword "éééé" = true ∧ "éééé".length = 4 ∧
    isValidPassword "ééééééééééé" = false ∧ "ééééééééééé".length = 11 := by
  decide

/-- Claim C19 (the code at the failing input). With the session cookie `sid` and the clock
at 100, `verifyEmail` with the code `AAA` calls `backend.VerifyEmail` with a renew time in
UTC and an expiry that is not in UTC: it is `time.Now().Add(sessionExpireDuration)` in the
local location. -/
theorem verifyEmail_expiry_is_local :
    ∃ emailVerifyHash sessionId renewsAt expiresAt,
      Event.VerifyEmail emailVerifyHash sessionId renewsAt expiresAt ∈
        (verifyEmail fixtureStore "AAA" (fixtureWorld demoFixture 100)).2.trace ∧
      renewsAt = utc (100 + sessionRenewDuration) ∧
      expiresAt = { nanos := 100 + sessionExpireDuration, loc := Location.Local } ∧
      expiresAt.loc ≠ Location.UTC := by
  have h : (verifyEmail fixtureStore "AAA" (fixtureWorld demoFixture 100)).2.trace =
      [Event.CookieGet "Session",
        Event.VerifyEmail (encodeToString (hash (decodeFromString "AAA=").1)) "sid"
          (utc (100 + sessionRenewDuration))
          { nanos := 100 + sessionExpireDuration, loc := Location.Local },
        Event.CookiePut "Session"
          (CookieValue.session
            { SessionId := "sid", RenewsAt := utc (100 + sessionRenewDuration),
              ExpiresAt := { nanos := 100 + sessionExpireDuration, loc := Location.Local } }),
        Event.SendWelcome "a@b.co"] := by
    rfl
  rw [h]
  exact ⟨_, _, _, _, List.mem_cons_of_mem _ (List.mem_cons_self _ _), rfl, rfl, by decide⟩
theorem login_rejects_key_of_wrong_length_witness :
    hashEquals (stringBytes "pass1234") (decodeFromString "").1 = false :=
  (login_rejects_key_of_wrong_length fixtureStore (fixtureWorld demoFixtureNoKey 100)
    "a@b.co" "pass1234" false
    { LoginId := 1, UserId := 1, LoginProviderId := 1, ProviderKey := "" } rfl
    (by decide)).1

theorem stringsIndex_none (sep : List Char) :
    ∀ s : List Char, stringsIndex s sep = none → ¬ sep <:+: s := by
  intro s
  induction s with
  | nil =>
      intro h hinf
      have : sep = [] := List.eq_nil_of_infix_nil hinf
      simp [stringsIndex, this] at h
  | cons c cs ih =>
      intro h hinf
      unfold stringsIndex at h
      split at h
      · cases h
      · rename_i hp
        simp only [Option.map_eq_none'] at h
        rw [List.infix_cons_iff] at hinf
        rcases hinf with hpre | hin
        · exact hp (List.isPrefixOf_iff_prefix.2 hpre)
        · exact ih h hin

theorem stringsIndex_some (sep : List Char) :
    ∀ (s : List Char) (i : Nat), stringsIndex s sep = some i →
      ∃ pre rest, s = pre ++ sep ++ rest ∧ pre.length = i ∧
        ∀ pre' rest', s = pre' ++ sep ++ rest' → i ≤ pre'.length := by
  intro s
  induction s with
  | nil =>
      intro i h
      unfold stringsIndex at h
      split at h
      · rename_i hs
        cases h
        exact ⟨[], [], by simp [hs], rfl, fun _ _ _ => Nat.zero_le _⟩
      · cases h
  | cons c cs ih =>
      intro i h
      unfold stringsIndex at h
      split at h
      · rename_i hp
        cases h
        obtain ⟨rest, hrest⟩ := List.isPrefixOf_iff_prefix.1 hp
        exact ⟨[], rest, by simp [hrest], rfl, fun _ _ _ => Nat.zero_le _⟩
      · rename_i hp
        cases hj : stringsIndex cs sep with
        | none => simp [hj] at h
        | some j =>
          simp only [hj, Option.map_some', Option.some.injEq] at h
          subst h
          obtain ⟨pre, rest, hs, hlen, hmin⟩ := ih j hj
          refine ⟨c :: pre, rest, by simp [hs], by simp [hlen], ?_⟩
          intro pre' rest' hs'
          cases pre' with
          | nil =>
              exfalso
              apply hp
              exact List.isPrefixOf_iff_prefix.2 ⟨rest', by simpa using hs'.symm⟩
          | cons d pre'' =>
              simp only [List.cons_append, List.cons.injEq] at hs'
              have := hmin pre'' rest' (by simpa using hs'.2)
              simp only [List.length_cons]
              omega

/-- Claim C18. When `url` does not contain `://`, `getBaseUrl(url)` is
`https://endfirst.com`. Otherwise `url` is `pre ++ "://" ++ host ++ tail` where this `://`
is the first one in `url`, `host` contains no `/`, and `tail` is empty or starts with `/`;
`getBaseUrl(url)` is the prefix `pre ++ "://" ++ host`: the whole `url` when no `/` follows
the separator, and otherwise what stands before the first such `/`. -/
theorem getBaseUrl_spec (url : String) :
    (¬ "://".data <:+: url.data → getBaseUrl url = "https://endfirst.com") ∧
    ("://".data <:+: url.data →
      ∃ pre host tail, url.data = pre ++ "://".data ++ host ++ tail ∧
        (∀ pre' rest', url.data = pre' ++ "://".data ++ rest' → pre.length ≤ pre'.length) ∧
        '/' ∉ host ∧ (tail = [] ∨ ∃ t, tail = '/' :: t) ∧
        (tail = [] → getBaseUrl url = url) ∧
        (getBaseUrl url).data = pre ++ "://".data ++ host) := by
  refine ⟨?_, ?_⟩
  · intro h
    cases hi : stringsIndex url.data "://".data with
    | none => simp [getBaseUrl, hi]
    | some i =>
      obtain ⟨pre, rest, hs, -, -⟩ := stringsIndex_some _ _ _ hi
      exact absurd ⟨pre, rest, hs.symm⟩ h
  · intro h
    cases hi : stringsIndex url.data "://".data with
    | none => exact absurd h (stringsIndex_none _ _ hi)
    | some i =>
      obtain ⟨pre, rest, hs, hlen, hmin⟩ := stringsIndex_some _ _ _ hi
      have hdrop : url.data.drop (i + 3) = rest := by
        rw [hs, List.append_assoc, ← hlen]
        rw [List.drop_append_eq_append_drop]
        simp
      cases hj : stringsIndex rest "/".data with
      | none =>
        have hno : '/' ∉ rest := by
          intro hmem
          apply stringsIndex_none _ _ hj
          obtain ⟨a, b, hab⟩ := List.append_of_mem hmem
          exact ⟨a, b, by simp [hab]⟩
        refine ⟨pre, rest, [], by simpa using hs, ?_, hno, Or.inl rfl, ?_, ?_⟩
        · intro pre' rest' h'
          rw [hlen]
          exact hmin pre' rest' h'
        · intro _
          simp [getBaseUrl, hi, hdrop, hj]
        · simp only [getBaseUrl, hi, hdrop, hj]
          simpa using hs
      | some j =>
        obtain ⟨host, t, hr, hjlen, hjmin⟩ := stringsIndex_some _ _ _ hj
        have hno : '/' ∉ host := by
          intro hmem
          obtain ⟨a, b, hab⟩ := List.append_of_mem hmem
          have h1 := hjmin a (b ++ "/".data ++ t) (by rw [hr, hab]; simp)
          have h2 : host.length = a.length + 1 + b.length := by
            rw [hab]; simp; omega
          omega
        refine ⟨pre, host, '/' :: t, ?_, ?_, hno, Or.inr ⟨t, rfl⟩, ?_, ?_⟩
        · rw [hs, hr]; simp
        · intro pre' rest' h'
          rw [hlen]
          exact hmin pre' rest' h'
        · intro h0; cases h0
        · simp only [getBaseUrl, hi, hdrop, hj]
          have e : url.data = (pre ++ "://".data ++ host) ++ ("/".data ++ t) := by
            rw [hs, hr]; simp
          have hl : (pre ++ "://".data ++ host).length = i + 3 + j := by
            simp [List.length_append]; omega
          rw [e]
          exact List.take_left' hl
theorem getBaseUrl_spec_witness : getBaseUrl "example.com/register" = "https://endfirst.com" :=
  (getBaseUrl_spec "example.com/register").1 (by decide)

theorem suffix_intro (R : List Event → Prop) (t evs : List Event) (h : R evs) :
    ∃ evs', t ++ evs = t ++ evs' ∧ R evs' := ⟨evs, rfl, h⟩

theorem getRememberMe_no_createProfile {σ : Type} (s : SessionStore σ) (w : World σ) :
    ∃ evs, (getRememberMe s w).2.trace = w.trace ++ evs ∧
      ∀ e ∈ evs, e.isCreateProfile = false := by
  obtain ⟨evs, h, hP⟩ := getRememberMe_trace s w
  refine ⟨evs, h, ?_⟩
  intro e he
  rcases hP e he with h | h | h
  · subst h; rfl
  · subst h; rfl
  · cases e <;> simp_all [Event.isRememberMeBackend, Event.isCreateProfile]

theorem renewSessionSoft_no_createProfile {σ : Type} (s : SessionStore σ)
    (sessionId : String) (w : World σ) :
    ∃ evs, (renewSessionSoft s sessionId w).2.trace = w.trace ++ evs ∧
      ∀ e ∈ evs, e.isCreateProfile = false := by
  unfold renewSessionSoft
  simp only [timeNow, call, saveSessionCookie_eq]
  repeat' split
  all_goals
    simp only [Prod.ext_iff] at *
    casesm* _ ∧ _
    subst_vars
    simp only [List.append_assoc]
    exact trace_intro _ _ _ (by simp [Event.isCreateProfile])

theorem renewSessionHard_no_createProfile {σ : Type} (s : SessionStore σ)
    (sessionId : String) (w : World σ) :
    ∃ evs, (renewSessionHard s sessionId w).2.trace = w.trace ++ evs ∧
      ∀ e ∈ evs, e.isCreateProfile = false := by
  obtain ⟨evs0, h0, hP0⟩ := getRememberMe_no_createProfile s w
  unfold renewSessionHard
  simp only [timeNow, call, saveSessionCookie_eq, deleteSessionCookie]
  repeat' split
  all_goals
    simp only [Prod.ext_iff] at *
    casesm* _ ∧ _
    subst_vars
    simp only [h0, List.append_assoc]
    first
      | exact trace_intro _ _ _ hP0
      | exact trace_intro _ _ _
          (List.forall_mem_append.2 ⟨hP0, by simp [Event.isCreateProfile]⟩)
theorem renewSession_no_createProfile {σ : Type} (s : SessionStore σ) (sessionId : String)
    (renewsAt expiresAt : Time) (w : World σ) :
    ∃ evs, (renewSession s sessionId renewsAt expiresAt w).2.trace = w.trace ++ evs ∧
      ∀ e ∈ evs, e.isCreateProfile = false := by
  unfold renewSession
  simp only [timeNow]
  split
  · split
    · exact renewSessionSoft_no_createProfile s sessionId _
    · exact renewSessionHard_no_createProfile s sessionId _
  · exact renewSessionHard_no_createProfile s sessionId _

/-- No call that `GetSession` makes is a `CreateProfileAndInvalidateSessions`. -/
theorem GetSession_no_createProfile {σ : Type} (s : SessionStore σ) (w : World σ) :
    ∃ evs, (GetSession s w).2.trace = w.trace ++ evs ∧
      ∀ e ∈ evs, e.isCreateProfile = false := by
  unfold GetSession
  simp only [getSessionCookie, call, timeNow]
  split
  · rename_i heq
    simp only [Prod.ext_iff] at heq
    obtain ⟨-, rfl⟩ := heq
    exact trace_intro _ _ _ (by simp [Event.isCreateProfile])
  · rename_i heq
    simp only [Prod.ext_iff] at heq
    obtain ⟨-, rfl⟩ := heq
    rename_i cookie
    have key : ∀ k : Nat, ∃ evs,
        (renewSession s cookie.SessionId cookie.RenewsAt cookie.ExpiresAt
          { ext := (s.cookieStore.GetSessionCookie s.sessionCookieName w.ext).2,
            clock := w.clock, clockReads := k, rand := w.rand, randReads := w.randReads,
            trace := w.trace ++ [Event.CookieGet s.sessionCookieName] }).2.trace =
          w.trace ++ evs ∧ ∀ e ∈ evs, e.isCreateProfile = false := by
      intro k
      obtain ⟨evs, h, hP⟩ := renewSession_no_createProfile s cookie.SessionId
        cookie.RenewsAt cookie.ExpiresAt
        { ext := (s.cookieStore.GetSessionCookie s.sessionCookieName w.ext).2,
          clock := w.clock, clockReads := k, rand := w.rand, randReads := w.randReads,
          trace := w.trace ++ [Event.CookieGet s.sessionCookieName] }
      rw [h]
      simp only [List.append_assoc]
      exact trace_intro _ _ _
        (List.forall_mem_append.2 ⟨by simp [Event.isCreateProfile], hP⟩)
    split
    · exact key _
    · split
      · exact key _
      · unfold getSessionFromBackend
        simp only [call, deleteSessionCookie]
        repeat' split
        all_goals
          simp only [Prod.ext_iff] at *
          casesm* _ ∧ _
          subst_vars
          simp only [List.append_assoc]
          exact trace_intro _ _ _ (by simp [Event.isCreateProfile])

/-- Claim C11 (as stated, refuted). The session in place is already full-auth
(`IsHalfAuth = false`): `GetSession` returns it, and `createProfile` succeeds, having
called `backend.CreateProfileAndInvalidateSessions` for it. -/
theorem createProfile_accepts_full_auth_session :
    (GetSession fixtureStore (fixtureWorld demoFixture 10)).1 = Except.ok demoSession ∧
    demoSession.IsHalfAuth = false ∧
    (createProfile fixtureStore "A B" "Org" "pass1234" "pic.png"
      (fixtureWorld demoFixture 10)).1 = none ∧
    Event.CreateProfileAndInvalidateSessions 1
        (encodeToString (hash (stringBytes "pass1234"))) "A B" "Org" "pic.png" "sid"
        (utc 200) (utc 50) ∈
      (createProfile fixtureStore "A B" "Org" "pass1234" "pic.png"
        (fixtureWorld demoFixture 10)).2.trace := by
  have h : (createProfile fixtureStore "A B" "Org" "pass1234" "pic.png"
      (fixtureWorld demoFixture 10)).2.trace =
      [Event.CookieGet "Session", Event.GetSession "sid",
        Event.CreateProfileAndInvalidateSessions 1
          (encodeToString (hash (stringBytes "pass1234"))) "A B" "Org" "pic.png" "sid"
          (utc 200) (utc 50),
        Event.CookiePut "Session"
          (CookieValue.session
            { SessionId := "sid", RenewsAt := utc 50, ExpiresAt := utc 200 })] := by
    rfl
  refine ⟨rfl, rfl, rfl, ?_⟩
  rw [h]
  exact List.mem_cons_of_mem _ (List.mem_cons_of_mem _ (List.mem_cons_self _ _))

/-- Claim C11 (amended). `createProfile` calls `backend.CreateProfileAndInvalidateSessions`
exactly when `GetSession` succeeds, whatever `IsHalfAuth` of the session it returns. When
`GetSession` fails, `createProfile` returns the `LoggedError` wrapping its error and makes
no call beyond those `GetSession` made, none of which is a
`CreateProfileAndInvalidateSessions`; when the session cookie cannot be read, the only
call at all is that cookie read. -/
theorem createProfile_requires_session {σ : Type} (s : SessionStore σ) (w : World σ)
    (fullName organization password picturePath : String) :
    (∀ err, (GetSession s w).1 = Except.error err →
      createProfile s fullName organization password picturePath w =
        (some (Error.LoggedError "Unable to get session" (some err)), (GetSession s w).2) ∧
      ∃ evs, (createProfile s fullName organization password picturePath w).2.trace =
          w.trace ++ evs ∧ ∀ e ∈ evs, e.isCreateProfile = false) ∧
    (∀ err, (s.cookieStore.GetSessionCookie s.sessionCookieName w.ext).1 = Except.error err →
      (∃ err', (createProfile s fullName organization password picturePath w).1 =
        some err') ∧
      (createProfile s fullName organization password picturePath w).2.trace =
        w.trace ++ [Event.CookieGet s.sessionCookieName]) ∧
    (∀ session, (GetSession s w).1 = Except.ok session →
      Event.CreateProfileAndInvalidateSessions session.LoginId
          (encodeToString (hash (stringBytes password))) fullName organization picturePath
          session.SessionId session.ExpiresAt session.RenewsAt ∈
        (createProfile s fullName organization password picturePath w).2.trace) := by
  refine ⟨?_, ?_, ?_⟩
  · intro err herr
    have hres : createProfile s fullName organization password picturePath w =
        (some (Error.LoggedError "Unable to get session" (some err)), (GetSession s w).2) := by
      unfold createProfile
      split
      · rename_i heq
        simp only [Prod.ext_iff] at heq
        obtain ⟨h1, rfl⟩ := heq
        rw [herr] at h1
        cases h1
        rfl
      · rename_i heq
        simp only [Prod.ext_iff] at heq
        rw [herr] at heq
        cases heq.1
    rw [hres]
    exact ⟨rfl, GetSession_no_createProfile s w⟩
  · intro err hcookie
    have hget : GetSession s w =
        (Except.error (NewAuthError "Session cookie not found" (some err)),
          (getSessionCookie s w).2) := by
      simp [GetSession, getSessionCookie, call, hcookie]
    unfold createProfile
    rw [hget]
    exact ⟨⟨_, rfl⟩, rfl⟩
  · intro session
    unfold createProfile
    simp only [call, saveSessionCookie_eq]
    split
    · intro h
      rename_i heq
      rw [(pair_eq heq).1] at h
      cases h
    · rename_i sess w1 heq
      have h1 := (pair_eq heq).1
      have h2 := (pair_eq heq).2
      subst h2
      intro h
      rw [h1] at h
      simp only [Except.ok.injEq] at h
      subst h
      repeat' split
      all_goals
        simp only [Prod.mk.injEq] at *
        casesm* _ ∧ _
        subst_vars
        simp

theorem createProfile_requires_session_witness :
    (createProfile fixtureStore "A B" "Org" "pass1234" "pic.png"
        (fixtureWorld { demoFixture with
          sessionCookie := Except.error (Error.other "http: named cookie not present") }
          10)).2.trace = [] ++ [Event.CookieGet "Session"] :=
  ((createProfile_requires_session fixtureStore
    (fixtureWorld { demoFixture with
      sessionCookie := Except.error (Error.other "http: named cookie not present") } 10)
    "A B" "Org" "pass1234" "pic.png").2.1 _ rfl).2

/-- Claim C12. `verifyEmail` keeps the current session id. When the session cookie can be
read, no random id is drawn, every `backend.VerifyEmail` call made carries
`cookie.SessionId`, and such a call is made whenever the code decodes. When the cookie
cannot be read, one random id is drawn; if the random source answers, every
`backend.VerifyEmail` call made carries that fresh id (and one is made whenever the code
decodes); if it fails, `verifyEmail` fails having made no backend call. -/
theorem verifyEmail_session_id {σ : Type} (s : SessionStore σ) (w : World σ)
    (emailVerificationCode : String) :
    (∀ cookie,
      (s.cookieStore.GetSessionCookie s.sessionCookieName w.ext).1 = Except.ok cookie →
        (verifyEmail s emailVerificationCode w).2.randReads = w.randReads ∧
        ∃ evs, (verifyEmail s emailVerificationCode w).2.trace = w.trace ++ evs ∧
          (∀ e ∈ evs, ∀ h sid t1 t2, e = Event.VerifyEmail h sid t1 t2 →
            sid = cookie.SessionId) ∧
          ((decodeFromString (emailVerificationCode ++ "=")).2 = false →
            ∃ h t1 t2, Event.VerifyEmail h cookie.SessionId t1 t2 ∈ evs)) ∧
    (∀ err g,
      (s.cookieStore.GetSessionCookie s.sessionCookieName w.ext).1 = Except.error err →
      w.rand w.randReads = Except.ok g →
        (verifyEmail s emailVerificationCode w).2.randReads = w.randReads + 1 ∧
        ∃ evs, (verifyEmail s emailVerificationCode w).2.trace = w.trace ++ evs ∧
          (∀ e ∈ evs, ∀ h sid t1 t2, e = Event.VerifyEmail h sid t1 t2 →
            sid = encodeToString ((List.range 32).map g)) ∧
          ((decodeFromString (emailVerificationCode ++ "=")).2 = false →
            ∃ h t1 t2,
              Event.VerifyEmail h (encodeToString ((List.range 32).map g)) t1 t2 ∈ evs)) ∧
    (∀ err err',
      (s.cookieStore.GetSessionCookie s.sessionCookieName w.ext).1 = Except.error err →
      w.rand w.randReads = Except.error err' →
        (verifyEmail s emailVerificationCode w).1 =
          some (Error.LoggedError "Unable to generate sessionId" (some err')) ∧
        (verifyEmail s emailVerificationCode w).2.trace =
          w.trace ++ [Event.CookieGet s.sessionCookieName]) := by
  refine ⟨?_, ?_, ?_⟩
  · intro cookie hcookie
    unfold verifyEmail
    simp only [getSessionCookie, call, hcookie, timeNow, saveSessionCookie_eq]
    repeat' split
    all_goals
      simp only [Prod.ext_iff] at *
      casesm* _ ∧ _
      subst_vars
      refine ⟨by first | rfl | trivial, ?_⟩
      try simp only [List.append_assoc]
      refine suffix_intro _ _ _ ⟨?_, ?_⟩
      · first
          | (simp; done)
          | (simp
             intros
             subst_vars
             rfl)
      · intro hd
        simp_all
  · intro err g hcookie hg
    unfold verifyEmail
    simp only [getSessionCookie, call, hcookie, timeNow, saveSessionCookie_eq,
      generateRandomString, generateRandomBytes, hg]
    repeat' split
    all_goals
      simp only [Prod.ext_iff] at *
      casesm* _ ∧ _
      subst_vars
      refine ⟨by first | rfl | trivial, ?_⟩
      try simp only [List.append_assoc]
      refine suffix_intro _ _ _ ⟨?_, ?_⟩
      · first
          | (simp; done)
          | (simp
             intros
             subst_vars
             rfl)
      · intro hd
        simp_all
  · intro err err' hcookie herr
    simp [verifyEmail, getSessionCookie, call, hcookie, generateRandomString,
      generateRandomBytes, herr, NewLoggedError]

theorem verifyEmail_session_id_witness :
    (verifyEmail fixtureStore "AAA" (fixtureWorld demoFixture 100)).2.randReads = 0 :=
  ((verifyEmail_session_id fixtureStore (fixtureWorld demoFixture 100) "AAA").1
    { SessionId := "sid", RenewsAt := utc 50, ExpiresAt := utc 200 } rfl).1

theorem generateRandomString_eq {σ : Type} (w : World σ) :
    generateRandomString w =
      (match w.rand w.randReads with
        | Except.error err => Except.error err
        | Except.ok b => Except.ok (encodeToString ((List.range 32).map b)),
       { w with randReads := w.randReads + 1 }) := by
  unfold generateRandomString generateRandomBytes
  cases w.rand w.randReads <;> rfl

theorem generateStringAndHash_eq {σ : Type} (w : World σ) :
    generateStringAndHash w =
      (match w.rand w.randReads with
        | Except.error err => Except.error err
        | Except.ok b =>
            Except.ok (encodeToString ((List.range 32).map b),
              encodeToString (hash ((List.range 32).map b))),
       { w with randReads := w.randReads + 1 }) := by
  unfold generateStringAndHash generateRandomBytes
  cases w.rand w.randReads <;> rfl

/-- The method `generateSelectorTokenAndHash` only advances the random source. -/
theorem generateSelectorTokenAndHash_snd {σ : Type} (w : World σ) :
    ∃ k, (generateSelectorTokenAndHash w).2 = { w with randReads := k } := by
  unfold generateSelectorTokenAndHash
  simp only [generateRandomString_eq, generateStringAndHash_eq]
  repeat' split
  all_goals
    simp only [Prod.ext_iff] at *
    casesm* _ ∧ _
    subst_vars
    exact ⟨_, rfl⟩

/-- When the random source answers twice, `generateSelectorTokenAndHash` succeeds. -/
theorem generateSelectorTokenAndHash_of_rand {σ : Type} (w : World σ) (f g : Nat → Byte)
    (hf : w.rand w.randReads = Except.ok f) (hg : w.rand (w.randReads + 1) = Except.ok g) :
    generateSelectorTokenAndHash w =
      (Except.ok (encodeToString ((List.range 32).map f),
          encodeToString ((List.range 32).map g),
          encodeToString (hash ((List.range 32).map g))),
        { w with randReads := w.randReads + 1 + 1 }) := by
  simp [generateSelectorTokenAndHash, generateRandomString_eq, generateStringAndHash_eq, hf, hg]

theorem generateSelectorTokenAndHash_of_rand_error {σ : Type} (w : World σ) (e : Error)
    (he : w.rand w.randReads = Except.error e) :
    generateSelectorTokenAndHash w =
      (Except.error (NewLoggedError "Unable to generate rememberMe selector" (some e)),
        { w with randReads := w.randReads + 1 }) := by
  simp [generateSelectorTokenAndHash, generateRandomString_eq, he]

theorem generateSelectorTokenAndHash_of_rand_error_second {σ : Type} (w : World σ)
    (f : Nat → Byte) (e : Error) (hf : w.rand w.randReads = Except.ok f)
    (he : w.rand (w.randReads + 1) = Except.error e) :
    generateSelectorTokenAndHash w =
      (Except.error (NewLoggedError "Unable to generate rememberMe token" (some e)),
        { w with randReads := w.randReads + 1 + 1 }) := by
  simp [generateSelectorTokenAndHash, generateRandomString_eq, generateStringAndHash_eq, hf, he]

/-- Claim C13. With the clock at `now`, every `backend.NewLoginSession` call that
`createSession` makes asks for a session with renewsAt = now + 5 min and
expiresAt = now + 60 min and a remember-me with renewsAt = now + 60 min and
expiresAt = now + 30 days, and every `backend.AddUser` call that `addUser` makes asks for
a session with renewsAt = now + 5 min and expiresAt = now + 60 min; these calls are made
whenever the random source answers. Hence `now < renewsAt <= expiresAt` for both
artifacts. -/
theorem creation_times {σ : Type} (s : SessionStore σ) (w : World σ) (loginId : Int)
    (rememberMe : Bool) (email : String) (now : Int) (hclock : ∀ k, w.clock k = now) :
    (∃ evs, (createSession s loginId rememberMe w).2.trace = w.trace ++ evs ∧
      (∀ e ∈ evs, ∀ lid sid t1 t2 rm sel th t3 t4,
        e = Event.NewLoginSession lid sid t1 t2 rm sel th t3 t4 →
          t1 = utc (now + 5 * Minute) ∧ t2 = utc (now + 60 * Minute) ∧
          t3 = utc (now + 60 * Minute) ∧ t4 = utc (now + 30 * (24 * (60 * Minute)))) ∧
      ((∀ k, ∃ f, w.rand k = Except.ok f) →
        ∃ sid sel th, Event.NewLoginSession loginId sid (utc (now + 5 * Minute))
          (utc (now + 60 * Minute)) rememberMe sel th (utc (now + 60 * Minute))
          (utc (now + 30 * (24 * (60 * Minute)))) ∈ evs)) ∧
    (∃ evs, (addUser s email w).2.trace = w.trace ++ evs ∧
      (∀ e ∈ evs, ∀ em h sid t1 t2, e = Event.AddUser em h sid t1 t2 →
        t1 = utc (now + 5 * Minute) ∧ t2 = utc (now + 60 * Minute)) ∧
      ((∀ k, ∃ f, w.rand k = Except.ok f) →
        ∃ h sid, Event.AddUser email h sid (utc (now + 5 * Minute))
          (utc (now + 60 * Minute)) ∈ evs)) ∧
    (now < now + 5 * Minute ∧ now + 5 * Minute ≤ now + 60 * Minute ∧
      now < now + 60 * Minute ∧ now + 60 * Minute ≤ now + 30 * (24 * (60 * Minute))) := by
  have hd : sessionRenewDuration = 5 * Minute ∧ sessionExpireDuration = 60 * Minute ∧
      rememberMeRenewDuration = 60 * Minute ∧
      rememberMeExpireDuration = 30 * (24 * (60 * Minute)) := by decide
  obtain ⟨hd1, hd2, hd3, hd4⟩ := hd
  have htime : ∀ k (d : Duration),
      ({ nanos := w.clock k, loc := Location.Local } : Time).UTC.Add d = utc (now + d) := by
    intro k d
    simp [Time.UTC, Time.Add, utc, hclock]
  refine ⟨?_, ?_, by simp only [Minute, Second, Nanosecond]; omega⟩
  · unfold createSession
    cases rememberMe
    · simp only [generateRandomString_eq, timeNow, call, getSessionCookie, saveSessionCookie_eq,
        Bool.false_eq_true, if_false]
      repeat' split
      all_goals
        simp only [Prod.ext_iff] at *
        casesm* _ ∧ _
        subst_vars
        try simp only [List.append_assoc]
        first
          | refine suffix_intro _ _ _ ?_
          | refine ⟨[], (List.append_nil _).symm, ?_⟩
        refine ⟨?_, ?_⟩
        · simp [htime, hd1, hd2, hd3, hd4]
          try (intros; subst_vars; simp)
        · intro hr
          obtain ⟨f0, hf0⟩ := hr w.randReads
          obtain ⟨f1, hf1⟩ := hr (w.randReads + 1)
          obtain ⟨f2, hf2⟩ := hr (w.randReads + 1 + 1)
          simp_all
    · simp only [if_true]
      rcases h0 : w.rand w.randReads with e0 | f0
      · rw [generateSelectorTokenAndHash_of_rand_error w e0 h0]
        refine ⟨[], (List.append_nil _).symm, by simp, ?_⟩
        intro hr
        obtain ⟨f, hf⟩ := hr w.randReads
        simp [h0] at hf
      · rcases h1 : w.rand (w.randReads + 1) with e1 | f1
        · rw [generateSelectorTokenAndHash_of_rand_error_second w f0 e1 h0 h1]
          refine ⟨[], (List.append_nil _).symm, by simp, ?_⟩
          intro hr
          obtain ⟨f, hf⟩ := hr (w.randReads + 1)
          simp [h1] at hf
        · rw [generateSelectorTokenAndHash_of_rand w f0 f1 h0 h1]
          simp only [generateRandomString_eq, timeNow, call, getSessionCookie,
            saveRememberMeCookie, saveSessionCookie_eq]
          repeat' split
          all_goals
            simp only [Prod.ext_iff] at *
            casesm* _ ∧ _
            subst_vars
            try simp only [List.append_assoc]
            first
              | refine suffix_intro _ _ _ ?_
              | refine ⟨[], (List.append_nil _).symm, ?_⟩
            refine ⟨?_, ?_⟩
            · simp [htime, hd1, hd2, hd3, hd4]
              try (intros; subst_vars; simp)
            · intro hr
              obtain ⟨f0, hf0⟩ := hr w.randReads
              obtain ⟨f1, hf1⟩ := hr (w.randReads + 1)
              obtain ⟨f2, hf2⟩ := hr (w.randReads + 1 + 1)
              simp_all
  · unfold addUser
    simp only [generateRandomString_eq, generateStringAndHash_eq, timeNow, call]
    repeat' split
    all_goals
      simp only [Prod.ext_iff] at *
      casesm* _ ∧ _
      subst_vars
      try simp only [List.append_assoc]
      first
        | refine suffix_intro _ _ _ ?_
        | refine ⟨[], (List.append_nil _).symm, ?_⟩
      refine ⟨?_, ?_⟩
      · simp [htime, hd1, hd2, hd3, hd4]
        try (intros; subst_vars; simp)
      · intro hr
        obtain ⟨f0, hf0⟩ := hr w.randReads
        obtain ⟨f1, hf1⟩ := hr (w.randReads + 1)
        obtain ⟨f2, hf2⟩ := hr (w.randReads + 1 + 1)
        simp_all

theorem creation_times_witness :
    (∀ k, (fixtureWorld demoFixture 100).clock k = 100) ∧
      ((100 : Int) < 100 + 5 * Minute ∧ (100 : Int) + 5 * Minute ≤ 100 + 60 * Minute ∧
        (100 : Int) < 100 + 60 * Minute ∧
        (100 : Int) + 60 * Minute ≤ 100 + 30 * (24 * (60 * Minute))) :=
  ⟨fun _ => rfl,
    (creation_times fixtureStore (fixtureWorld demoFixture 100) 1 true "a@b.co" 100
      (fun _ => rfl)).2.2⟩

/-- Claim C14 (the Redis `CreateSession` evaluated). The database holds a remember-me with
selector `otherselector` for user 2. `CreateSession` for user 1 with `includeRememberMe`
and that selector does not fail with `ErrRememberMeSelectorExists`: it succeeds, and the
record read back under the selector afterwards is the new one, of user 1, with the new
token hash and times. -/
theorem CreateSession_redis_replaces_rememberMe_of_other_user :
    ((demoRedis (10 * Minute)).GetRememberMe "otherselector"
        (redisRememberMeWorld
          (storedRememberMe 2 "otherselector" "oldhash" (70 * Minute) (1000 * Minute)))).1 =
      Except.ok (storedRememberMe 2 "otherselector" "oldhash" (70 * Minute) (1000 * Minute)) ∧
    ∃ session rememberMe w,
      (demoRedis (10 * Minute)).CreateSession 1 "a@b.co" "A B" "sessionId" (utc (15 * Minute))
          (utc (70 * Minute)) true "otherselector" "hash" (utc (70 * Minute))
          (utc (2000 * Minute))
          (redisRememberMeWorld
            (storedRememberMe 2 "otherselector" "oldhash" (70 * Minute) (1000 * Minute))) =
        (Except.ok (session, rememberMe), w) ∧
      rememberMe = storedRememberMe 1 "otherselector" "hash" (70 * Minute) (2000 * Minute) ∧
      ((demoRedis (10 * Minute)).GetRememberMe "otherselector" w).1 = Except.ok rememberMe := by
  refine ⟨rfl, _, _, _, rfl, rfl, rfl⟩

/-- Claim C15 (the Redis `RenewRememberMe` evaluated). The clock reads minute 10 and the
stored remember-me expires at minute 70. A renew time of minute 130, after the expiry, and
a renew time of minute -50, before the clock, are both stored and returned; neither call
fails with `ErrInvalidRenewsAtTime`. For a stored remember-me that expired at minute 5
the call fails, with an error that is not `ErrRememberMeExpired`. -/
theorem RenewRememberMe_redis_accepts_any_renew_time :
    (∃ w,
      (demoRedis (10 * Minute)).RenewRememberMe "selector" (utc (130 * Minute))
          (redisRememberMeWorld
            (storedRememberMe 1 "selector" "hash" (5 * Minute) (70 * Minute))) =
        (Except.ok (storedRememberMe 1 "selector" "hash" (130 * Minute) (70 * Minute)), w) ∧
      ((demoRedis (10 * Minute)).GetRememberMe "selector" w).1 =
        Except.ok (storedRememberMe 1 "selector" "hash" (130 * Minute) (70 * Minute))) ∧
    (∃ w,
      (demoRedis (10 * Minute)).RenewRememberMe "selector" (utc (-50 * Minute))
          (redisRememberMeWorld
            (storedRememberMe 1 "selector" "hash" (5 * Minute) (70 * Minute))) =
        (Except.ok (storedRememberMe 1 "selector" "hash" (-50 * Minute) (70 * Minute)), w) ∧
      ((demoRedis (10 * Minute)).GetRememberMe "selector" w).1 =
        Except.ok (storedRememberMe 1 "selector" "hash" (-50 * Minute) (70 * Minute))) ∧
    ((demoRedis (10 * Minute)).RenewRememberMe "selector" (utc (15 * Minute))
        (redisRememberMeWorld
          (storedRememberMe 1 "selector" "hash" (2 * Minute) (5 * Minute)))).1 =
      Except.error (Error.other "Unable to save expired rememberMe") := by
  refine ⟨⟨_, rfl, rfl⟩, ⟨_, rfl, rfl⟩, rfl⟩

/-! ## The derivative matcher and the texts it accepts -/

theorem Regex.nullable_iff (r : Regex) : r.nullable = true ↔ Regex.Matches r [] := by
  induction r with
  | fail => exact ⟨fun h => by simp [Regex.nullable] at h, fun h => by cases h⟩
  | eps => exact ⟨fun _ => Regex.Matches.eps, fun _ => rfl⟩
  | cls p => exact ⟨fun h => by simp [Regex.nullable] at h, fun h => by cases h⟩
  | cat r s ihr ihs =>
      constructor
      · intro h
        simp only [Regex.nullable, Bool.and_eq_true] at h
        exact Regex.Matches.cat r s [] [] (ihr.1 h.1) (ihs.1 h.2)
      · intro h
        generalize hs : ([] : List Char) = t at h
        cases h with
        | cat _ _ a b ha hb =>
            have hab := List.append_eq_nil.1 hs.symm
            obtain ⟨rfl, rfl⟩ := hab
            simp only [Regex.nullable, Bool.and_eq_true]
            exact ⟨ihr.2 ha, ihs.2 hb⟩
  | alt r s ihr ihs =>
      constructor
      · intro h
        simp only [Regex.nullable, Bool.or_eq_true] at h
        rcases h with h | h
        · exact Regex.Matches.altLeft r s [] (ihr.1 h)
        · exact Regex.Matches.altRight r s [] (ihs.1 h)
      · intro h
        simp only [Regex.nullable, Bool.or_eq_true]
        cases h with
        | altLeft _ _ _ ha => exact Or.inl (ihr.2 ha)
        | altRight _ _ _ ha => exact Or.inr (ihs.2 ha)
  | star r _ => exact ⟨fun _ => Regex.Matches.starNil r, fun _ => rfl⟩

theorem Regex.matches_fail (t : List Char) : ¬ Regex.Matches Regex.fail t := by
  intro h
  cases h

theorem Regex.matches_eps_iff (t : List Char) : Regex.Matches Regex.eps t ↔ t = [] := by
  constructor
  · intro h
    cases h
    rfl
  · rintro rfl
    exact Regex.Matches.eps

theorem Regex.matches_cls_iff (p : Char → Bool) (t : List Char) :
    Regex.Matches (Regex.cls p) t ↔ ∃ c, t = [c] ∧ p c = true := by
  constructor
  · intro h
    cases h with
    | cls _ c hc => exact ⟨c, rfl, hc⟩
  · rintro ⟨c, rfl, hc⟩
    exact Regex.Matches.cls p c hc

theorem Regex.matches_cat_iff (r s : Regex) (t : List Char) :
    Regex.Matches (Regex.cat r s) t ↔
      ∃ a b, t = a ++ b ∧ Regex.Matches r a ∧ Regex.Matches s b := by
  constructor
  · intro h
    cases h with
    | cat _ _ a b ha hb => exact ⟨a, b, rfl, ha, hb⟩
  · rintro ⟨a, b, rfl, ha, hb⟩
    exact Regex.Matches.cat r s a b ha hb

theorem Regex.matches_alt_iff (r s : Regex) (t : List Char) :
    Regex.Matches (Regex.alt r s) t ↔ Regex.Matches r t ∨ Regex.Matches s t := by
  constructor
  · intro h
    cases h with
    | altLeft _ _ _ ha => exact Or.inl ha
    | altRight _ _ _ ha => exact Or.inr ha
  · rintro (h | h)
    · exact Regex.Matches.altLeft r s t h
    · exact Regex.Matches.altRight r s t h

/-- A non-empty text matched by `r*` starts with a non-empty text matched by `r`. -/
theorem Regex.matches_star_cons (r : Regex) (t : List Char)
    (h : Regex.Matches (Regex.star r) t) :
    ∀ c s, t = c :: s →
      ∃ a b, s = a ++ b ∧ Regex.Matches r (c :: a) ∧ Regex.Matches (Regex.star r) b := by
  generalize hq : Regex.star r = q at h
  induction h with
  | eps => intro c s hcs; cases hcs
  | cls p d hd => cases hq
  | cat _ _ _ _ _ _ _ _ => cases hq
  | altLeft _ _ _ _ _ => cases hq
  | altRight _ _ _ _ _ => cases hq
  | starNil _ => intro c s hcs; cases hcs
  | starCons r0 a b ha hb _ ihb =>
      cases hq
      intro c s hcs
      cases a with
      | nil => exact ihb rfl c s hcs
      | cons d a0 =>
          simp only [List.cons_append, List.cons.injEq] at hcs
          obtain ⟨rfl, rfl⟩ := hcs
          exact ⟨a0, b, rfl, ha, hb⟩

theorem Regex.deriv_iff (r : Regex) (c : Char) :
    ∀ s, Regex.Matches (r.deriv c) s ↔ Regex.Matches r (c :: s) := by
  induction r with
  | fail =>
      intro s
      exact ⟨fun h => (Regex.matches_fail _ h).elim, fun h => (Regex.matches_fail _ h).elim⟩
  | eps =>
      intro s
      constructor
      · intro h
        exact (Regex.matches_fail _ h).elim
      · intro h
        have := (Regex.matches_eps_iff _).1 h
        cases this
  | cls p =>
      intro s
      simp only [Regex.deriv]
      constructor
      · intro h
        by_cases hp : p c = true
        · rw [if_pos hp] at h
          have hs := (Regex.matches_eps_iff _).1 h
          subst hs
          exact Regex.Matches.cls p c hp
        · rw [if_neg hp] at h
          exact (Regex.matches_fail _ h).elim
      · intro h
        obtain ⟨d, hd, hpd⟩ := (Regex.matches_cls_iff _ _).1 h
        simp only [List.cons.injEq] at hd
        obtain ⟨rfl, rfl⟩ := hd
        rw [if_pos hpd]
        exact Regex.Matches.eps
  | cat r1 r2 ih1 ih2 =>
      intro s
      have hleft : Regex.Matches (Regex.cat (r1.deriv c) r2) s →
          Regex.Matches (Regex.cat r1 r2) (c :: s) := by
        intro h
        obtain ⟨a, b, rfl, ha, hb⟩ := (Regex.matches_cat_iff _ _ _).1 h
        exact Regex.Matches.cat r1 r2 (c :: a) b ((ih1 a).1 ha) hb
      constructor
      · intro h
        simp only [Regex.deriv] at h
        by_cases hn : r1.nullable = true
        · rw [if_pos hn] at h
          rcases (Regex.matches_alt_iff _ _ _).1 h with h | h
          · exact hleft h
          · exact Regex.Matches.cat r1 r2 [] (c :: s) ((Regex.nullable_iff r1).1 hn)
              ((ih2 s).1 h)
        · rw [if_neg hn] at h
          exact hleft h
      · intro h
        obtain ⟨a, b, hab, ha, hb⟩ := (Regex.matches_cat_iff _ _ _).1 h
        simp only [Regex.deriv]
        cases a with
        | nil =>
            simp only [List.nil_append] at hab
            subst hab
            rw [if_pos ((Regex.nullable_iff r1).2 ha)]
            exact Regex.Matches.altRight _ _ _ ((ih2 s).2 hb)
        | cons d a0 =>
            simp only [List.cons_append, List.cons.injEq] at hab
            obtain ⟨rfl, rfl⟩ := hab
            have hcat : Regex.Matches (Regex.cat (r1.deriv c) r2) (a0 ++ b) :=
              Regex.Matches.cat _ _ a0 b ((ih1 a0).2 ha) hb
            by_cases hn : r1.nullable = true
            · rw [if_pos hn]
              exact Regex.Matches.altLeft _ _ _ hcat
            · rw [if_neg hn]
              exact hcat
  | alt r1 r2 ih1 ih2 =>
      intro s
      simp only [Regex.deriv, Regex.matches_alt_iff, ih1 s, ih2 s]
  | star r ih =>
      intro s
      simp only [Regex.deriv]
      constructor
      · intro h
        obtain ⟨a, b, rfl, ha, hb⟩ := (Regex.matches_cat_iff _ _ _).1 h
        exact Regex.Matches.starCons r (c :: a) b ((ih a).1 ha) hb
      · intro h
        obtain ⟨a, b, rfl, ha, hb⟩ := Regex.matches_star_cons r _ h c s rfl
        exact Regex.Matches.cat _ _ a b ((ih a).2 ha) hb

theorem Regex.matchWhole_iff (text : List Char) :
    ∀ r : Regex, r.matchWhole text = true ↔ Regex.Matches r text := by
  induction text with
  | nil =>
      intro r
      exact Regex.nullable_iff r
  | cons c s ih =>
      intro r
      have h := ih (r.deriv c)
      simp only [Regex.matchWhole, List.foldl_cons] at h ⊢
      exact h.trans (Regex.deriv_iff r c s)

theorem Regex.matches_star_cls_iff (p : Char → Bool) (t : List Char) :
    Regex.Matches (Regex.star (Regex.cls p)) t ↔ ∀ c ∈ t, p c = true := by
  constructor
  · intro h
    generalize hq : Regex.star (Regex.cls p) = q at h
    induction h with
    | eps => intro c hc; cases hc
    | cls _ _ _ => cases hq
    | cat _ _ _ _ _ _ _ _ => cases hq
    | altLeft _ _ _ _ _ => cases hq
    | altRight _ _ _ _ _ => cases hq
    | starNil _ => intro c hc; cases hc
    | starCons r0 a b ha hb _ ihb =>
        cases hq
        obtain ⟨d, rfl, hd⟩ := (Regex.matches_cls_iff _ _).1 ha
        intro c hc
        simp only [List.singleton_append, List.mem_cons] at hc
        rcases hc with rfl | hc
        · exact hd
        · exact ihb rfl c hc
  · intro h
    induction t with
    | nil => exact Regex.Matches.starNil _
    | cons c s ih =>
        exact Regex.Matches.starCons _ [c] s
          (Regex.Matches.cls p c (h c (List.mem_cons_self c s)))
          (ih (fun d hd => h d (List.mem_cons_of_mem c hd)))

theorem Regex.matches_plus_cls_iff (p : Char → Bool) (t : List Char) :
    Regex.Matches (Regex.plus (Regex.cls p)) t ↔ t ≠ [] ∧ ∀ c ∈ t, p c = true := by
  simp only [Regex.plus, Regex.matches_cat_iff, Regex.matches_cls_iff,
    Regex.matches_star_cls_iff]
  constructor
  · rintro ⟨a, b, rfl, ⟨c, rfl, hc⟩, hb⟩
    refine ⟨by simp, ?_⟩
    intro d hd
    simp only [List.singleton_append, List.mem_cons] at hd
    rcases hd with rfl | hd
    · exact hc
    · exact hb d hd
  · rintro ⟨hne, h⟩
    cases t with
    | nil => exact (hne rfl).elim
    | cons c s =>
        exact ⟨[c], s, rfl, ⟨c, rfl, h c (List.mem_cons_self c s)⟩,
          fun d hd => h d (List.mem_cons_of_mem c hd)⟩

/-- The texts `emailRegex` matches. -/
theorem emailRegex_matches_iff (t : List Char) :
    Regex.Matches emailRegex t ↔
      ∃ loc domain tld : List Char, t = loc ++ '@' :: (domain ++ '.' :: tld) ∧
        loc ≠ [] ∧ (∀ c ∈ loc, isLocalChar c = true) ∧
        domain ≠ [] ∧ (∀ c ∈ domain, isDomainChar c = true) ∧
        2 ≤ tld.length ∧ (∀ c ∈ tld, isFoldedLetter c = true) := by
  unfold emailRegex
  simp only [Regex.matches_cat_iff, Regex.matches_plus_cls_iff, Regex.matches_cls_iff,
    Regex.matches_star_cls_iff]
  constructor
  · rintro ⟨loc, _, rfl, ⟨hloc, hlocAll⟩, _, _, rfl, ⟨c1, rfl, hc1⟩, domain, _, rfl,
      ⟨hdom, hdomAll⟩, _, _, rfl, ⟨c2, rfl, hc2⟩, _, _, rfl, ⟨c3, rfl, hc3⟩, _, rest, rfl,
      ⟨c4, rfl, hc4⟩, hrest⟩
    simp only [beq_iff_eq] at hc1 hc2
    subst hc1 hc2
    refine ⟨loc, domain, c3 :: c4 :: rest, by simp, hloc, hlocAll, hdom, hdomAll, by simp, ?_⟩
    intro c hc
    simp only [List.mem_cons] at hc
    rcases hc with rfl | rfl | hc
    · exact hc3
    · exact hc4
    · exact hrest c hc
  · rintro ⟨loc, domain, tld, rfl, hloc, hlocAll, hdom, hdomAll, htld, htldAll⟩
    match tld, htld, htldAll with
    | c3 :: c4 :: rest, _, htldAll =>
        refine ⟨loc, _, rfl, ⟨hloc, hlocAll⟩, ['@'], _, rfl, ⟨'@', rfl, by simp⟩, domain, _,
          rfl, ⟨hdom, hdomAll⟩, ['.'], _, rfl, ⟨'.', rfl, by simp⟩, [c3], _, rfl,
          ⟨c3, rfl, htldAll c3 (by simp)⟩, [c4], rest, rfl, ⟨c4, rfl, htldAll c4 (by simp)⟩,
          fun c hc => htldAll c (by simp [hc])⟩

theorem specValidEmail_last (e : String) (h : specValidEmail e) :
    ∃ c, e.data.getLast? = some c ∧ specLetter c = true := by
  obtain ⟨_, _, loc, domain, tld, he, _, _, _, _, htld, hall⟩ := h
  have hne : tld ≠ [] := by
    intro h0
    subst h0
    simp at htld
  refine ⟨tld.getLast hne, ?_, hall _ (List.getLast_mem hne)⟩
  have he2 : e.data = (loc ++ '@' :: (domain ++ ['.'])) ++ tld := by simp [he]
  rw [he2, List.getLast?_append, List.getLast?_eq_getLast tld hne]
  rfl

/-- Claim C17 (as stated, refuted). The text `a@b.` followed by two Kelvin signs (U+212A)
is accepted by `isValidEmail`, but its last part does not consist of letters `A`-`Z`,
`a`-`z`: it has no split of the stated shape. -/
theorem isValidEmail_accepts_kelvin_sign :
    isValidEmail "a@b.\u212A\u212A" = true ∧ ¬ specValidEmail "a@b.\u212A\u212A" := by
  refine ⟨by decide, ?_⟩
  intro h
  obtain ⟨c, hc, hl⟩ := specValidEmail_last _ h
  have hc2 : "a@b.\u212A\u212A".data.getLast? = some (Char.ofNat 0x212A) := by decide
  rw [hc2] at hc
  cases hc
  revert hl
  decide

theorem isLocalChar_ne_at (c : Char) (h : isLocalChar c = true) : c ≠ '@' := by
  rintro rfl
  revert h
  decide

theorem isDomainChar_ne_at (c : Char) (h : isDomainChar c = true) : c ≠ '@' := by
  rintro rfl
  revert h
  decide

theorem isFoldedLetter_ne_at (c : Char) (h : isFoldedLetter c = true) : c ≠ '@' := by
  rintro rfl
  revert h
  decide

/-- Claim C17 (amended). `isValidEmail e` holds exactly when `e` has between 6 and 254
bytes and splits as local + `@` + domain + `.` + tld, where local is a non-empty text over
letters, digits and `. _ % + -`, domain is a non-empty text over letters, digits and `. -`,
and tld consists of at least two letters; a letter here is one of `A`-`Z`, `a`-`z`, U+017F
or U+212A (the characters that fold to a letter of `A`-`Z`). Every accepted email contains
exactly one `@`. -/
theorem isValidEmail_iff (e : String) :
    (isValidEmail e = true ↔
      6 ≤ len e ∧ len e ≤ 254 ∧
        ∃ loc domain tld : List Char, e.data = loc ++ '@' :: (domain ++ '.' :: tld) ∧
          loc ≠ [] ∧ (∀ c ∈ loc, isLocalChar c = true) ∧
          domain ≠ [] ∧ (∀ c ∈ domain, isDomainChar c = true) ∧
          2 ≤ tld.length ∧ (∀ c ∈ tld, isFoldedLetter c = true)) ∧
    (isValidEmail e = true → e.data.count '@' = 1) ∧
    (∀ c, isFoldedLetter c = (specLetter c || c.toNat == 0x17F || c.toNat == 0x212A)) ∧
    (∀ c, isLocalChar c =
      (isFoldedLetter c || isDigit c || c == '.' || c == '_' || c == '%' || c == '+' ||
        c == '-')) ∧
    (∀ c, isDomainChar c = (isFoldedLetter c || isDigit c || c == '.' || c == '-')) := by
  have hiff : isValidEmail e = true ↔
      6 ≤ len e ∧ len e ≤ 254 ∧
        ∃ loc domain tld : List Char, e.data = loc ++ '@' :: (domain ++ '.' :: tld) ∧
          loc ≠ [] ∧ (∀ c ∈ loc, isLocalChar c = true) ∧
          domain ≠ [] ∧ (∀ c ∈ domain, isDomainChar c = true) ∧
          2 ≤ tld.length ∧ (∀ c ∈ tld, isFoldedLetter c = true) := by
    unfold isValidEmail emailRegexMatchString
    simp only [Bool.and_eq_true, decide_eq_true_eq, beq_iff_eq, Regex.matchWhole_iff,
      emailRegex_matches_iff]
    constructor
    · rintro ⟨⟨h1, h2⟩, h3⟩
      exact ⟨h2, h1, h3⟩
    · rintro ⟨h1, h2, h3⟩
      exact ⟨⟨h2, h1⟩, h3⟩
  refine ⟨hiff, ?_, fun _ => rfl, fun _ => rfl, fun _ => rfl⟩
  intro h
  obtain ⟨_, _, loc, domain, tld, he, _, hloc, _, hdom, _, htld⟩ := hiff.1 h
  have h1 : loc.count '@' = 0 :=
    List.count_eq_zero.2 (fun hm => isLocalChar_ne_at _ (hloc _ hm) rfl)
  have h2 : domain.count '@' = 0 :=
    List.count_eq_zero.2 (fun hm => isDomainChar_ne_at _ (hdom _ hm) rfl)
  have h3 : tld.count '@' = 0 :=
    List.count_eq_zero.2 (fun hm => isFoldedLetter_ne_at _ (htld _ hm) rfl)
  rw [he]
  simp [List.count_append, List.count_cons, h1, h2, h3]

theorem isValidEmail_iff_witness :
    isValidEmail "a@b.co" = true ∧ "a@b.co".data.count '@' = 1 :=
  ⟨by decide, (isValidEmail_iff "a@b.co").2.1 (by decide)⟩

/-- The Redis `RenewSession` at a single clock reading `now`, for a session found under
`sessionHash`: the session handed to `save` is the stored one with the renew time given and
with its expiry moved to `now + 60 min` when the stored expiry was before `now`; the call
returns that session when `save` succeeds and the error of `save` otherwise. When the stored
expiry is `now` itself, nothing is handed to `save`: `saveSession` rejects the session as
expired. -/
theorem RenewSession_redis_found {δ : Type} (r : backendRedisSession δ) (sessionHash : String)
    (renewTimeUTC : Time) (w : RedisWorld δ) (now : Int) (stored : loginSession)
    (hclock : ∀ k, r.clock k = now)
    (hq : (r.db.QueryStructRow (r.getSessionKey sessionHash) w.data).1 = Except.ok stored) :
    (stored.ExpireTimeUTC.nanos = now →
      (r.RenewSession sessionHash renewTimeUTC w).1 =
        Except.error (Error.other "Unable to save expired session")) ∧
    (stored.ExpireTimeUTC.nanos ≠ now →
      ∃ w1 : RedisWorld δ,
        w1.data = (r.db.QueryStructRow (r.getSessionKey sessionHash) w.data).2 ∧
        r.RenewSession sessionHash renewTimeUTC w =
          (match r.save (r.getSessionKey stored.SessionHash)
              { stored with
                RenewTimeUTC := renewTimeUTC
                ExpireTimeUTC :=
                  if stored.ExpireTimeUTC.nanos < now then utc (now + 60 * Minute)
                  else stored.ExpireTimeUTC }
              (rememberMeExpireDuration / Second) w1 with
            | (some err, w2) => (Except.error err, w2)
            | (none, w2) =>
                (Except.ok
                  { stored with
                    RenewTimeUTC := renewTimeUTC
                    ExpireTimeUTC :=
                      if stored.ExpireTimeUTC.nanos < now then utc (now + 60 * Minute)
                      else stored.ExpireTimeUTC }, w2))) := by
  have hd : sessionExpireDuration = 60 * Minute := by decide
  have hpos : (0 : Int) < 60 * Minute := by decide
  constructor
  · intro hexp
    unfold backendRedisSession.RenewSession backendRedisSession.GetSession
    simp only [hq, redisNow, hclock, Time.Before, Time.UTC, Time.Add, utc,
      backendRedisSession.saveSession, hexp, lt_irrefl, decide_False, Bool.false_eq_true,
      if_false]
    simp
  · intro hexp
    unfold backendRedisSession.RenewSession backendRedisSession.GetSession
    simp only [hq, redisNow, hclock, Time.Before, Time.UTC, Time.Add, utc,
      backendRedisSession.saveSession, hd]
    by_cases hlt : stored.ExpireTimeUTC.nanos < now
    · have hg : ¬ (now - (now + 60 * Minute) ≥ 0) := by omega
      simp only [hlt, decide_True, if_true, hg, if_false]
      exact ⟨_, rfl, rfl⟩
    · have hg : ¬ (now - stored.ExpireTimeUTC.nanos ≥ 0) := by omega
      simp only [hlt, decide_False, Bool.false_eq_true, if_false, hg]
      exact ⟨_, rfl, rfl⟩

/-- Claim C21 (the code at the failing input). The clock reads minute 10 and the session
stored under `sid` expires at minute 10: its expiry is not before the clock reading, so
`RenewSession` keeps it, and the save step then rejects the session as expired: the call
fails with `Unable to save expired session`, and the stored session is as it was. -/
theorem RenewSession_redis_rejects_session_expiring_now :
    (storedSession (9 * Minute) (10 * Minute)).ExpireTimeUTC.Before (utc (10 * Minute)) = false ∧
    ((demoRedis (10 * Minute)).GetSession "sid"
        (redisFixtureWorld (storedSession (9 * Minute) (10 * Minute)) (10 * Minute)).ext).1 =
      Except.ok (storedSession (9 * Minute) (10 * Minute)) ∧
    ∃ w,
      (demoRedis (10 * Minute)).RenewSession "sid" (utc (15 * Minute))
          (redisFixtureWorld (storedSession (9 * Minute) (10 * Minute)) (10 * Minute)).ext =
        (Except.error (Error.other "Unable to save expired session"), w) ∧
      ((demoRedis (10 * Minute)).GetSession "sid" w).1 =
        Except.ok (storedSession (9 * Minute) (10 * Minute)) := by
  refine ⟨by decide, rfl, _, rfl, rfl⟩

theorem length_le_utf8Len (cs : List Char) : cs.length ≤ String.utf8Len cs := by
  induction cs with
  | nil => simp
  | cons c cs ih =>
      have := Char.utf8Size_pos c
      simp only [List.length_cons, String.utf8Len_cons]
      omega

theorem length_le_len (e : String) : e.length ≤ len e := length_le_utf8Len e.data

/-- Every text `emailRegex` matches has at least 6 characters. -/
theorem emailRegex_matches_length (t : List Char) (h : Regex.Matches emailRegex t) :
    6 ≤ t.length := by
  obtain ⟨loc, domain, tld, rfl, hloc, _, hdom, _, htld, _⟩ := (emailRegex_matches_iff t).1 h
  have h1 : 0 < loc.length := List.length_pos.2 hloc
  have h2 : 0 < domain.length := List.length_pos.2 hdom
  simp only [List.length_append, List.length_cons]
  omega

/-- Claim C22. Every string `emailRegex` matches has at least 6 characters, hence at least 6
bytes, so the lower length bound of `isValidEmail` never decides: for every string `e`,
`isValidEmail e` equals `len e <= 254 and emailRegex matches e`. -/
theorem isValidEmail_lower_bound_redundant (e : String) :
    (emailRegexMatchString e = true → 6 ≤ e.length ∧ 6 ≤ len e) ∧
    isValidEmail e = isValidEmailWithoutLowerBound e := by
  have hlen : emailRegexMatchString e = true → 6 ≤ e.length ∧ 6 ≤ len e := by
    intro h
    have h6 : 6 ≤ e.data.length :=
      emailRegex_matches_length _ ((Regex.matchWhole_iff _ _).1 h)
    exact ⟨h6, le_trans h6 (length_le_len e)⟩
  refine ⟨hlen, ?_⟩
  unfold isValidEmail isValidEmailWithoutLowerBound
  cases hm : emailRegexMatchString e with
  | false => simp
  | true =>
      have := (hlen hm).2
      simp [this]

theorem isValidEmail_lower_bound_redundant_witness :
    emailRegexMatchString "a@b.co" = true ∧ 6 ≤ len "a@b.co" ∧
      isValidEmail "a@b.co" = isValidEmailWithoutLowerBound "a@b.co" :=
  ⟨by decide, ((isValidEmail_lower_bound_redundant "a@b.co").1 (by decide)).2,
    (isValidEmail_lower_bound_redundant "a@b.co").2⟩

end NginxAuth
